import Mathlib

/-!
# Accton AS9817-64 FPGA/CPLD driver: register access, raw access protocol and field decode

A shallow embedding of `accton_as9817_64_cpld.c`.

* The I2C bus is a deterministic environment: the status returned by the `k`-th
  SMBus transaction is `bus k t`, where `t` is the transaction that is issued.  Every
  sequence of outcomes is obtained by a suitable choice of `bus`.
* Every kernel primitive with a visible effect (`i2c_smbus_*_byte_data`, `msleep`,
  `mutex_lock`, `mutex_unlock`) appends one event to the trace of the world, in
  program order.
* C `int` / `ssize_t` results are `Int`; `u8` values are `Nat` below 256; a `char`
  buffer is a `String` (output) or a `List Char` (input), one `Char` per byte.
-/

namespace As9817

/-! ## Constants of the driver and of the kernel -/

/-- Kernel errno `EPERM`. -/
def EPERM : Int := 1
/-- Kernel errno for an input/output error. -/
def EIO : Int := 5
/-- Kernel errno `EINVAL`. -/
def EINVAL : Int := 22
/-- Kernel errno `ERANGE`. -/
def ERANGE : Int := 34
/-- Kernel errno `ENOMEM`. -/
def ENOMEM : Int := 12
/-- Kernel errno `ENODEV`. -/
def ENODEV : Int := 19

/-- Source: `#define I2C_RW_RETRY_COUNT (10)`. -/
def I2C_RW_RETRY_COUNT : Nat := 10
/-- Source: `#define I2C_RW_RETRY_INTERVAL (60)`, in milliseconds. -/
def I2C_RW_RETRY_INTERVAL : Nat := 60

def FPGA_BOARD_INFO_REG : Nat := 0x00
def FPGA_MAJOR_VER_REG : Nat := 0x01
def FPGA_MINOR_VER_REG : Nat := 0x02
def FPGA_RESET1_REG : Nat := 0x05
def FPGA_PRESENT_REG : Nat := 0x07
def FPGA_PSU_STATUS_REG : Nat := 0x51
def CPLD2_MAJOR_VER_REG : Nat := 0x00
def CPLD2_MINOR_VER_REG : Nat := 0x01
def CPLD3_MAJOR_VER_REG : Nat := 0x00
def CPLD3_MINOR_VER_REG : Nat := 0x01

/-! ## Data model -/

/-- Source: `enum cpld_type`. -/
inductive cpld_type where
  | as9817_64_fpga
  | as9817_64_cpld2
  | as9817_64_cpld3
  deriving DecidableEq, Repr

/-- Source: `enum as9817_64_cpld_sysfs_attributes`. -/
inductive as9817_64_cpld_sysfs_attributes where
  | BOARD_INFO
  | VERSION
  | PSU1_PRESENT
  | PSU2_PRESENT
  | PSU1_PWR_GOOD
  | PSU2_PWR_GOOD
  | MAC_RESET
  | ACCESS
  deriving DecidableEq, Repr

/-- Source: `struct as9817_64_cpld_data`, the fields that carry data: the variant and
the register selected by the raw access protocol.  The `update_lock` mutex of the
struct is named by `Mutex.update_lock` and its use is recorded in the trace. -/
structure as9817_64_cpld_data where
  type : cpld_type
  reg : Nat
  deriving DecidableEq, Repr

/-- The part of `struct i2c_client` the driver uses: the bus address and the client
data attached by `i2c_set_clientdata`. -/
structure i2c_client where
  addr : Nat
  data : as9817_64_cpld_data
  deriving DecidableEq, Repr

/-- One single-byte SMBus transaction. -/
inductive Txn where
  | read (addr reg : Nat)
  | write (addr reg value : Nat)
  deriving DecidableEq, Repr

/-- The two kinds of mutex of the driver: the registry-wide `list_lock` and the
`update_lock` of the device at a bus address. -/
inductive Mutex where
  | list_lock
  | update_lock (addr : Nat)
  deriving DecidableEq, Repr

/-- An observable step of the driver. -/
inductive Event where
  | smbus (t : Txn) (status : Int)
  | msleep (ms : Nat)
  | mutex_lock (m : Mutex)
  | mutex_unlock (m : Mutex)
  deriving DecidableEq, Repr

/-- The environment of the driver: `bus k t` is the status that the `k`-th SMBus
transaction returns when it is the transaction `t` (negative: an errno; otherwise the
byte read, or 0 for a write); `clock` counts the transactions performed so far;
`trace` lists the events so far, oldest first. -/
structure World where
  bus : Nat → Txn → Int
  clock : Nat
  trace : List Event

/-! ## Kernel primitives -/

/-- One SMBus transaction: ask the bus, advance the clock, log the event. -/
def smbus_xfer (w : World) (t : Txn) : Int × World :=
  (w.bus w.clock t,
   { w with clock := w.clock + 1, trace := w.trace ++ [Event.smbus t (w.bus w.clock t)] })

/-- Kernel `i2c_smbus_read_byte_data(client, reg)`. -/
def i2c_smbus_read_byte_data (w : World) (client : i2c_client) (reg : Nat) : Int × World :=
  smbus_xfer w (Txn.read client.addr reg)

/-- Kernel `i2c_smbus_write_byte_data(client, reg, value)`. -/
def i2c_smbus_write_byte_data (w : World) (client : i2c_client) (reg value : Nat) :
    Int × World :=
  smbus_xfer w (Txn.write client.addr reg value)

/-- Kernel `msleep(ms)`. -/
def msleep (w : World) (ms : Nat) : World :=
  { w with trace := w.trace ++ [Event.msleep ms] }

/-- Kernel `mutex_lock(m)`. -/
def mutex_lock (w : World) (m : Mutex) : World :=
  { w with trace := w.trace ++ [Event.mutex_lock m] }

/-- Kernel `mutex_unlock(m)`. -/
def mutex_unlock (w : World) (m : Mutex) : World :=
  { w with trace := w.trace ++ [Event.mutex_unlock m] }

/-! ## Bus transport: `as9817_64_cpld_read_internal`, `as9817_64_cpld_write_internal` -/

/-- The `while (retry)` loop of `as9817_64_cpld_read_internal`; the arguments are the
current values of `retry` and `status`. -/
def cpld_read_loop (client : i2c_client) (reg : Nat) : Nat → Int → World → Int × World
  | 0, status, w => (status, w)
  | retry + 1, _, w =>
    let r := i2c_smbus_read_byte_data w client reg
    if r.1 < 0 then
      cpld_read_loop client reg retry r.1 (msleep r.2 I2C_RW_RETRY_INTERVAL)
    else
      (r.1, r.2)

/-- Source: `as9817_64_cpld_read_internal` (`status = 0, retry = I2C_RW_RETRY_COUNT`). -/
def as9817_64_cpld_read_internal (w : World) (client : i2c_client) (reg : Nat) :
    Int × World :=
  cpld_read_loop client reg I2C_RW_RETRY_COUNT 0 w

/-- The `while (retry)` loop of `as9817_64_cpld_write_internal`. -/
def cpld_write_loop (client : i2c_client) (reg value : Nat) :
    Nat → Int → World → Int × World
  | 0, status, w => (status, w)
  | retry + 1, _, w =>
    let r := i2c_smbus_write_byte_data w client reg value
    if r.1 < 0 then
      cpld_write_loop client reg value retry r.1 (msleep r.2 I2C_RW_RETRY_INTERVAL)
    else
      (r.1, r.2)

/-- Source: `as9817_64_cpld_write_internal`. -/
def as9817_64_cpld_write_internal (w : World) (client : i2c_client) (reg value : Nat) :
    Int × World :=
  cpld_write_loop client reg value I2C_RW_RETRY_COUNT 0 w

/-! ## Kernel string routines used by the sysfs callbacks -/

/-- The value of a digit character as computed in the kernel routine
`_parse_integer_limit`: `'0'..'9'` directly, letters through `_tolower(c) = c | 0x20`
in `'a'..'f'`; anything else stops the parse. -/
def digit_value (c : Char) : Option Nat :=
  let lc := c.toNat ||| 0x20
  if 48 ≤ c.toNat ∧ c.toNat ≤ 57 then some (c.toNat - 48)
  else if 97 ≤ lc ∧ lc ≤ 102 then some (lc - 97 + 10)
  else none

/-- Kernel `_parse_integer_fixup_radix` for a caller-chosen base (the driver passes 16
and 10, never 0): in base 16 a leading `0x` or `0X` is skipped. -/
def _parse_integer_fixup_radix (s : List Char) (base : Nat) : List Char :=
  match s with
  | c0 :: c1 :: rest =>
    if base = 16 ∧ c0 = '0' ∧ (c1.toNat ||| 0x20) = 120 then rest else s
  | _ => s

/-- Kernel `_parse_integer`: consume digits below `base`, accumulating in an unsigned
64-bit `res`; returns `res`, the number `rv` of characters consumed, the overflow
flag (`KSTRTOX_OVERFLOW`) and the unconsumed rest of the string. -/
def _parse_integer (base : Nat) : List Char → Nat → Nat → Bool → Nat × Nat × Bool × List Char
  | [], res, rv, ov => (res, rv, ov, [])
  | c :: s, res, rv, ov =>
    match digit_value c with
    | none => (res, rv, ov, c :: s)
    | some val =>
      if val ≥ base then (res, rv, ov, c :: s)
      else
        let ov1 := ov || (decide (res / 2 ^ 60 ≠ 0) && decide (res > (2 ^ 64 - 1 - val) / base))
        _parse_integer base s ((res * base + val) % 2 ^ 64) (rv + 1) ov1

/-- Kernel `_kstrtoull`: radix fix-up, digits, an optional single trailing newline,
then the end of the string. -/
def _kstrtoull (s : List Char) (base : Nat) : Except Int Nat :=
  let p := _parse_integer base (_parse_integer_fixup_radix s base) 0 0 false
  if p.2.2.1 then Except.error (-ERANGE)
  else if p.2.1 = 0 then Except.error (-EINVAL)
  else
    let rest := match p.2.2.2 with
      | '\n' :: r => r
      | r => r
    if rest ≠ [] then Except.error (-EINVAL) else Except.ok p.1

/-- Kernel `kstrtoull`: an optional leading `+`. -/
def kstrtoull (s : List Char) (base : Nat) : Except Int Nat :=
  match s with
  | '+' :: r => _kstrtoull r base
  | _ => _kstrtoull s base

/-- Kernel `kstrtou8(s, base, &res)`: `Except.ok v` stands for return value 0 with
`*res = v`; `Except.error e` for the negative return `e` with `*res` untouched. -/
def kstrtou8 (s : List Char) (base : Nat) : Except Int Nat :=
  match kstrtoull s base with
  | Except.error e => Except.error e
  | Except.ok tmp => if tmp ≠ tmp % 256 then Except.error (-ERANGE) else Except.ok tmp

/-- C library `strsep(&tmp_p, " ")` on a non-NULL `tmp_p`: the token before the first
space, and the new `tmp_p` (the text after that space, or NULL when there is none). -/
def strsep : List Char → List Char × Option (List Char)
  | [] => ([], none)
  | c :: cs =>
    if c = ' ' then ([], some cs)
    else ((c :: (strsep cs).1), (strsep cs).2)

/-- The C string held by a `char` array: the bytes before the first NUL. -/
def c_string : List Char → List Char
  | [] => []
  | c :: cs => if c = Char.ofNat 0 then [] else c :: c_string cs

/-- Decimal text of a C `int`, as `sprintf("%d")` prints it. -/
def fmt_d (v : Int) : String := toString v

/-- The lower-case hexadecimal digit of a value below 16. -/
def hex_digit (d : Nat) : Char := "0123456789abcdef".toList.getD d '?'

/-- Text of `sprintf("%02x")` for a non-negative `int`: lower-case hexadecimal, padded
with zeros to at least two digits. -/
def fmt_02x (v : Nat) : String :=
  let ds := Nat.toDigits 16 v
  String.mk (List.replicate (2 - ds.length) '0' ++ ds)

/-! ## sysfs callbacks -/

/-- What a sysfs `show` callback leaves behind: the `ssize_t` it returns, the contents
of the page buffer `buf`, and the world. -/
structure ShowResult where
  ret : Int
  buf : String
  w : World

/-- What a sysfs `store` callback leaves behind: the `ssize_t` it returns, the client
(with its possibly updated client data) and the world. -/
structure StoreResult where
  ret : Int
  client : i2c_client
  w : World

/-- Source: `show_version`.  `reg1` and `reg2` are declared without an initialiser;
`reg1_0` and `reg2_0` are the values those locals hold before the `switch`.  The
`sprintf` result is the number of characters written. -/
def show_version (w : World) (client : i2c_client) (attr : as9817_64_cpld_sysfs_attributes)
    (reg1_0 reg2_0 : Nat) (buf : String) : ShowResult :=
  let regs : Nat × Nat :=
    match attr with
    | as9817_64_cpld_sysfs_attributes.VERSION =>
      match client.data.type with
      | cpld_type.as9817_64_fpga => (FPGA_MAJOR_VER_REG, FPGA_MINOR_VER_REG)
      | cpld_type.as9817_64_cpld2 => (CPLD2_MAJOR_VER_REG, CPLD2_MINOR_VER_REG)
      | cpld_type.as9817_64_cpld3 => (CPLD3_MAJOR_VER_REG, CPLD3_MINOR_VER_REG)
    | _ => (reg1_0, reg2_0)
  let major := i2c_smbus_read_byte_data w client (regs.1 % 256)
  if major.1 < 0 then
    { ret := major.1, buf := buf, w := major.2 }
  else
    let minor := i2c_smbus_read_byte_data major.2 client (regs.2 % 256)
    if minor.1 < 0 then
      { ret := minor.1, buf := buf, w := minor.2 }
    else
      let out := fmt_d major.1 ++ "." ++ fmt_d minor.1 ++ "\n"
      { ret := out.length, buf := out, w := minor.2 }

/-- Source: `show` (renamed: `show` is a Lean keyword).  The locals `reg`, `val`,
`mask`, `revert` start at 0; `bits_shift` is declared without an initialiser and
`bits_shift_0` is the value it holds before the `switch`.  After a successful read
`val` is non-negative, so the shift and mask are computed on naturals (exact for the
shift counts below 32 on which C defines `>>` for an `int`). -/
def show_ (w : World) (client : i2c_client) (attr : as9817_64_cpld_sysfs_attributes)
    (bits_shift_0 : Nat) (buf : String) : ShowResult :=
  -- (reg, bits_shift, mask, revert)
  let sel : Nat × Nat × Nat × Nat :=
    match attr with
    | as9817_64_cpld_sysfs_attributes.BOARD_INFO => (FPGA_BOARD_INFO_REG, bits_shift_0, 0xFF, 0)
    | as9817_64_cpld_sysfs_attributes.PSU1_PRESENT => (FPGA_PRESENT_REG, 1, 0x01, 1)
    | as9817_64_cpld_sysfs_attributes.PSU2_PRESENT => (FPGA_PRESENT_REG, 0, 0x01, 1)
    | as9817_64_cpld_sysfs_attributes.PSU1_PWR_GOOD => (FPGA_PSU_STATUS_REG, 1, 0x01, 0)
    | as9817_64_cpld_sysfs_attributes.PSU2_PWR_GOOD => (FPGA_PSU_STATUS_REG, 3, 0x01, 0)
    | _ => (0, bits_shift_0, 0, 0)
  let r := i2c_smbus_read_byte_data w client sel.1
  if r.1 < 0 then
    { ret := - EIO, buf := buf, w := r.2 }
  else
    let val : Nat := (r.1.toNat >>> sel.2.1) &&& sel.2.2.1
    let shown : Int := if sel.2.2.2 ≠ 0 then (if val = 0 then 1 else 0) else (val : Int)
    let out := fmt_d shown ++ "\n"
    { ret := out.length, buf := out, w := r.2 }

/-- Source: `reg_read`.  `status` starts at 0; the `exit:` label is reached both by the
`goto` of the failure path and by falling through after `sprintf`. -/
def reg_read (w : World) (client : i2c_client) (buf : String) : ShowResult :=
  let status : Int := 0
  let w1 := mutex_lock w (Mutex.update_lock client.addr)
  let r := as9817_64_cpld_read_internal w1 client client.data.reg
  if r.1 < 0 then
    -- goto exit
    { ret := status, buf := buf, w := mutex_unlock r.2 (Mutex.update_lock client.addr) }
  else
    let w2 := mutex_unlock r.2 (Mutex.update_lock client.addr)
    let out := "0x" ++ fmt_02x r.1.toNat ++ "\n"
    -- exit:
    { ret := out.length, buf := out, w := mutex_unlock w2 (Mutex.update_lock client.addr) }

/-- The state of the token loop of `reg_write`: `args`, `input[0]`, `input[1]` and
`tmp_p` (`none` is NULL). -/
structure ScanState where
  args : Nat
  input0 : Nat
  input1 : Nat
  tmp_p : Option (List Char)
  deriving DecidableEq, Repr

/-- The loop `while (args < 2 && (opt = strsep(&tmp_p, " ")) != NULL)` of `reg_write`,
one iteration per unit of fuel; the result is the state in which the loop stands. -/
def reg_write_scan : Nat → ScanState → ScanState
  | 0, st => st
  | fuel + 1, st =>
    if st.args < 2 then
      match st.tmp_p with
      | none => st
      | some s =>
        match kstrtou8 (strsep s).1 16 with
        | Except.ok v =>
          if st.args = 0 then
            reg_write_scan fuel { st with args := 1, input0 := v, tmp_p := (strsep s).2 }
          else
            reg_write_scan fuel { st with args := st.args + 1, input1 := v, tmp_p := (strsep s).2 }
        | Except.error _ =>
          reg_write_scan fuel { st with tmp_p := (strsep s).2 }
    else st

/-- The contents of `tmp` seen by the token loop of `reg_write`: the first `copy_size`
bytes of `buf` (`count` if `count < 32`, else 31), NUL-terminated. -/
def reg_write_tmp (buf : List Char) : List Char :=
  let count := buf.length
  let copy_size := if count < 32 then count else 32 - 1
  c_string (buf.take copy_size)

/-- Source: `reg_write`.  `buf` holds the `count` bytes written to the attribute.  The
token loop is given more fuel than it can use on `tmp`, so what it returns is the
state at the exit of the `while`. -/
def reg_write (w : World) (client : i2c_client) (buf : List Char) : StoreResult :=
  let count : Int := buf.length
  let tmp := reg_write_tmp buf
  let st := reg_write_scan (tmp.length + 2) { args := 0, input0 := 0, input1 := 0, tmp_p := some tmp }
  if st.args = 2 then
    let w1 := mutex_lock w (Mutex.update_lock client.addr)
    let r := as9817_64_cpld_write_internal w1 client st.input0 st.input1
    if r.1 < 0 then
      -- goto exit
      { ret := r.1, client := client, w := mutex_unlock r.2 (Mutex.update_lock client.addr) }
    else
      { ret := count, client := client, w := mutex_unlock r.2 (Mutex.update_lock client.addr) }
  else if st.args = 1 then
    { ret := count, client := { client with data := { client.data with reg := st.input0 } }, w := w }
  else
    { ret := -EINVAL, client := client, w := w }

/-- Source: `reset_mac`.  `buf` holds the `count` bytes written to the attribute and
`kstrtou8` reads it as a C string in base 10.  The value returned by
`as9817_64_cpld_write_internal` is not looked at. -/
def reset_mac (w : World) (client : i2c_client) (buf : List Char) : StoreResult :=
  let count : Int := buf.length
  match kstrtou8 (c_string buf) 10 with
  | Except.error _ => { ret := -EINVAL, client := client, w := w }
  | Except.ok _ =>
    let r := as9817_64_cpld_write_internal w client FPGA_RESET1_REG 0xBF
    { ret := count, client := client, w := r.2 }

/-! ## Device registry and the by-address API

A pointer to a `struct i2c_client` is a number, and `mem` gives the struct behind a
pointer.  The registry `cpld_client_list` is the list of the `client` pointers of its
`cpld_client_node`s, head first. -/

/-- Source: `as9817_64_cpld_add_client`.  `node_alloc` tells whether `kzalloc` returned
a node; `list_add` inserts at the head. -/
def as9817_64_cpld_add_client (w : World) (cpld_client_list : List Nat) (client : Nat)
    (node_alloc : Bool) : List Nat × World :=
  if node_alloc = false then
    (cpld_client_list, w)
  else
    let w1 := mutex_lock w Mutex.list_lock
    (client :: cpld_client_list, mutex_unlock w1 Mutex.list_lock)

/-- The `list_for_each` search of `as9817_64_cpld_remove_client` together with the
`list_del` that follows it: the first node whose `client` is the given pointer is
unlinked; without such a node the list stays as it is. -/
def remove_client_loop (client : Nat) : List Nat → List Nat
  | [] => []
  | node :: rest =>
    if node = client then rest else node :: remove_client_loop client rest

/-- Source: `as9817_64_cpld_remove_client`. -/
def as9817_64_cpld_remove_client (w : World) (cpld_client_list : List Nat) (client : Nat) :
    List Nat × World :=
  let w1 := mutex_lock w Mutex.list_lock
  (remove_client_loop client cpld_client_list, mutex_unlock w1 Mutex.list_lock)

/-- The `list_for_each` loop of `as9817_64_cpld_read`: at the first node whose client
has the address `cpld_addr`, `ret` becomes the result of the transport read and the
loop breaks. -/
def cpld_read_list_loop (mem : Nat → i2c_client) (cpld_addr reg : Nat) :
    List Nat → Int → World → Int × World
  | [], ret, w => (ret, w)
  | node :: rest, ret, w =>
    if (mem node).addr = cpld_addr then
      as9817_64_cpld_read_internal w (mem node) reg
    else
      cpld_read_list_loop mem cpld_addr reg rest ret w

/-- Source: `as9817_64_cpld_read` (`ret` starts at `-EPERM`). -/
def as9817_64_cpld_read (w : World) (mem : Nat → i2c_client) (cpld_client_list : List Nat)
    (cpld_addr reg : Nat) : Int × World :=
  let ret : Int := -EPERM
  let w1 := mutex_lock w Mutex.list_lock
  let r := cpld_read_list_loop mem cpld_addr reg cpld_client_list ret w1
  (r.1, mutex_unlock r.2 Mutex.list_lock)

/-- The `list_for_each` loop of `as9817_64_cpld_write`. -/
def cpld_write_list_loop (mem : Nat → i2c_client) (cpld_addr reg value : Nat) :
    List Nat → Int → World → Int × World
  | [], ret, w => (ret, w)
  | node :: rest, ret, w =>
    if (mem node).addr = cpld_addr then
      as9817_64_cpld_write_internal w (mem node) reg value
    else
      cpld_write_list_loop mem cpld_addr reg value rest ret w

/-- Source: `as9817_64_cpld_write` (`ret` starts at `-EIO`). -/
def as9817_64_cpld_write (w : World) (mem : Nat → i2c_client) (cpld_client_list : List Nat)
    (cpld_addr reg value : Nat) : Int × World :=
  let ret : Int := - EIO
  let w1 := mutex_lock w Mutex.list_lock
  let r := cpld_write_list_loop mem cpld_addr reg value cpld_client_list ret w1
  (r.1, mutex_unlock r.2 Mutex.list_lock)

/-- Source: `as9817_64_psu_is_powergood`, with the macro
`IS_POWER_GOOD(id, value) = (value >> (id * 2 + 1)) & 0x01`.  `client_ptr` is `none` for
a NULL pointer. -/
def as9817_64_psu_is_powergood (w : World) (mem : Nat → i2c_client)
    (cpld_client_list : List Nat) (client_ptr : Option Nat) : Int × World :=
  match client_ptr with
  | none => (-EINVAL, w)
  | some p =>
    let r := as9817_64_cpld_read w mem cpld_client_list 0x60 FPGA_PSU_STATUS_REG
    if r.1 < 0 then
      (0, r.2)
    else
      let psu_index : Nat := if (mem p).addr = 0x58 then 0 else 1
      ((((r.1.toNat >>> (psu_index * 2 + 1)) &&& 0x01 : Nat) : Int), r.2)

/-- The state the driver works on: the world, the client structs in memory and the
registry. -/
structure Driver where
  w : World
  mem : Nat → i2c_client
  cpld_client_list : List Nat

/-- What the kernel answers to the calls of `as9817_64_cpld_probe`:
`i2c_check_functionality`, the `kzalloc` of the client data,
`platform_device_register_simple` (`some e` when it returns the error pointer of
errno `e`), `sysfs_create_group`, and the `kzalloc` of the registry node. -/
structure ProbeEnv where
  smbus_byte : Bool
  data_alloc : Bool
  led_pdev_err : Option Int
  sysfs_create_group : Int
  node_alloc : Bool

/-- Source: `as9817_64_cpld_probe` for the client behind the pointer `client`, with
`id->driver_data = driver_data`.  `kzalloc` hands out zeroed client data; on the
`exit_free` and `exit` paths the driver state is as before. -/
def as9817_64_cpld_probe (d : Driver) (client : Nat) (driver_data : cpld_type)
    (env : ProbeEnv) : Int × Driver :=
  if env.smbus_byte = false then
    (-ENODEV, d)
  else if env.data_alloc = false then
    (-ENOMEM, d)
  else
    let data : as9817_64_cpld_data := { type := driver_data, reg := 0 }
    let mem1 := Function.update d.mem client { addr := (d.mem client).addr, data := data }
    let led : Option Int :=
      match driver_data with
      | cpld_type.as9817_64_fpga => env.led_pdev_err
      | _ => none
    match led with
    | some e => (e, d)
    | none =>
      if env.sysfs_create_group ≠ 0 then
        (env.sysfs_create_group, d)
      else
        let r := as9817_64_cpld_add_client d.w d.cpld_client_list client env.node_alloc
        (0, { w := r.2, mem := mem1, cpld_client_list := r.1 })

/-! ## Sequences of operations -/

/-- One call into the driver: a sysfs callback on the client behind a pointer, or a
call of the exported by-address API. -/
inductive Op where
  | reg_read (client : Nat) (buf : String)
  | reg_write (client : Nat) (buf : List Char)
  | reset_mac (client : Nat) (buf : List Char)
  | show_ (client : Nat) (attr : as9817_64_cpld_sysfs_attributes) (bits_shift_0 : Nat)
      (buf : String)
  | show_version (client : Nat) (attr : as9817_64_cpld_sysfs_attributes)
      (reg1_0 reg2_0 : Nat) (buf : String)
  | cpld_read (cpld_addr reg : Nat)
  | cpld_write (cpld_addr reg value : Nat)
  | psu_is_powergood (client_ptr : Option Nat)

/-- The driver state after one call; a `store` callback writes the client it returns
back to memory. -/
def Driver.step (d : Driver) : Op → Driver
  | Op.reg_read p buf => { d with w := (reg_read d.w (d.mem p) buf).w }
  | Op.reg_write p buf =>
    { d with
      w := (reg_write d.w (d.mem p) buf).w
      mem := Function.update d.mem p (reg_write d.w (d.mem p) buf).client }
  | Op.reset_mac p buf =>
    { d with
      w := (reset_mac d.w (d.mem p) buf).w
      mem := Function.update d.mem p (reset_mac d.w (d.mem p) buf).client }
  | Op.show_ p attr bits_shift_0 buf =>
    { d with w := (show_ d.w (d.mem p) attr bits_shift_0 buf).w }
  | Op.show_version p attr reg1_0 reg2_0 buf =>
    { d with w := (show_version d.w (d.mem p) attr reg1_0 reg2_0 buf).w }
  | Op.cpld_read cpld_addr reg =>
    { d with w := (as9817_64_cpld_read d.w d.mem d.cpld_client_list cpld_addr reg).2 }
  | Op.cpld_write cpld_addr reg value =>
    { d with
      w := (as9817_64_cpld_write d.w d.mem d.cpld_client_list cpld_addr reg value).2 }
  | Op.psu_is_powergood client_ptr =>
    { d with
      w := (as9817_64_psu_is_powergood d.w d.mem d.cpld_client_list client_ptr).2 }

/-- The driver state after a sequence of calls, first call first. -/
def Driver.run (d : Driver) (ops : List Op) : Driver := ops.foldl Driver.step d

/-! ## Specification vocabulary -/

/-- The status the bus gives to the `j`-th transaction from now, if that transaction
is `t`. -/
def outcome (w : World) (t : Txn) (j : Nat) : Int := w.bus (w.clock + j) t

/-- The events of `k` consecutive failed attempts of transaction `t` that start at
clock `c`: each attempt is followed by the fixed back-off sleep of 60 ms. -/
def failed_attempts (bus : Nat → Txn → Int) (t : Txn) (c : Nat) : Nat → List Event
  | 0 => []
  | k + 1 =>
    Event.smbus t (bus c t) :: Event.msleep 60 :: failed_attempts bus t (c + 1) k

/-- The world after `k` failed attempts of `t` followed by one successful attempt. -/
def after_success (w : World) (t : Txn) (k : Nat) : World :=
  { w with
    clock := w.clock + (k + 1)
    trace := w.trace ++ (failed_attempts w.bus t w.clock k ++
      [Event.smbus t (w.bus (w.clock + k) t)]) }

/-- The world after `n` failed attempts of `t` and nothing else. -/
def after_failures (w : World) (t : Txn) (n : Nat) : World :=
  { w with
    clock := w.clock + n
    trace := w.trace ++ failed_attempts w.bus t w.clock n }

/-- The retry loop that the two transport functions share, for one transaction `t`. -/
def smbus_retry_loop (t : Txn) : Nat → Int → World → Int × World
  | 0, status, w => (status, w)
  | retry + 1, _, w =>
    if (smbus_xfer w t).1 < 0 then
      smbus_retry_loop t retry (smbus_xfer w t).1
        (msleep (smbus_xfer w t).2 I2C_RW_RETRY_INTERVAL)
    else
      smbus_xfer w t

/-- The byte a token denotes when `kstrtou8` accepts it in base 16; `none` when the
token is not a hexadecimal byte. -/
def hex_byte (tok : List Char) : Option Nat := (kstrtou8 tok 16).toOption

/-- The space-separated tokens of a string (an empty string has one empty token). -/
def tokens : List Char → List (List Char)
  | [] => [[]]
  | c :: cs =>
    if c = ' ' then [] :: tokens cs
    else
      match tokens cs with
      | [] => [[c]]
      | t :: ts => (c :: t) :: ts

/-- A string without a space and without a NUL byte. -/
def clean (s : List Char) : Prop := ∀ c ∈ s, c ≠ ' ' ∧ c ≠ Char.ofNat 0

/-- Remaining work of the token loop: 0 when `tmp_p` is NULL, else one more than the
length of the text still to be split. -/
def scan_measure (st : ScanState) : Nat :=
  match st.tmp_p with
  | none => 0
  | some s => s.length + 1

/-- The presence and power-good fields as the specification lists them: register, bit
offset, and whether the polarity is inverted. -/
def psu_field : as9817_64_cpld_sysfs_attributes → Option (Nat × Nat × Bool)
  | as9817_64_cpld_sysfs_attributes.PSU1_PRESENT => some (0x07, 1, true)
  | as9817_64_cpld_sysfs_attributes.PSU2_PRESENT => some (0x07, 0, true)
  | as9817_64_cpld_sysfs_attributes.PSU1_PWR_GOOD => some (0x51, 1, false)
  | as9817_64_cpld_sysfs_attributes.PSU2_PWR_GOOD => some (0x51, 3, false)
  | _ => none

/-- The specified decode of a one-bit field: `(b >> shift) & 1`, logically negated iff
the field is inverted. -/
def decode_bit (b shift : Nat) (inverted : Bool) : Bool :=
  xor (decide ((b >>> shift) &&& 1 = 1)) inverted

/-- A boolean rendered as `0` or `1`. -/
def bool_text (v : Bool) : String := if v then "1" else "0"

/-- The major and minor version registers of each variant as the specification lists
them. -/
def version_regs : cpld_type → Nat × Nat
  | cpld_type.as9817_64_fpga => (0x01, 0x02)
  | cpld_type.as9817_64_cpld2 => (0x00, 0x01)
  | cpld_type.as9817_64_cpld3 => (0x00, 0x01)

/-- The byte a token denotes when `kstrtou8` accepts it in base 10; `none` when the
token is not a decimal byte. -/
def dec_byte (tok : List Char) : Option Nat := (kstrtou8 tok 10).toOption

/-- Lookup by bus address: the first registered client with the given address. -/
def find_by_address (mem : Nat → i2c_client) (cpld_client_list : List Nat) (addr : Nat) :
    Option Nat :=
  cpld_client_list.find? (fun p => decide ((mem p).addr = addr))

/-- The registry holds at most one entry per bus address. -/
def unique_addresses (mem : Nat → i2c_client) (cpld_client_list : List Nat) : Prop :=
  (cpld_client_list.map (fun p => (mem p).addr)).Nodup

/-- The hexadecimal bytes among the tokens that `reg_write` sees in an input. -/
def hex_bytes_of (buf : List Char) : List Nat :=
  (tokens (reg_write_tmp buf)).filterMap hex_byte

/-- The register that an input to `reg_write` selects: the input must hold exactly
one token that is a hexadecimal byte. -/
def select_of (buf : List Char) : Option Nat :=
  match hex_bytes_of buf with
  | [R] => some R
  | _ => none

/-- The register selected on the client behind `p` after a sequence of calls, when
`r0` was selected before: the one chosen by the last selecting input written to the
`access` attribute of `p`. -/
def selected_after (p : Nat) : Nat → List Op → Nat
  | r0, [] => r0
  | r0, Op.reg_write q buf :: ops =>
    selected_after p (if q = p then (select_of buf).getD r0 else r0) ops
  | r0, _ :: ops => selected_after p r0 ops

/-- The bus events (transactions and sleeps) are those that are not lock events. -/
def is_bus_event : Event → Bool
  | Event.smbus _ _ => true
  | Event.msleep _ => true
  | _ => false

/-- Replay of the events of mutex `m` in a trace, starting with the mutex held or
free: `some held` gives the state of the mutex at the end of a trace in which it is
only acquired while free and only released while held; `none` marks a trace that
releases the mutex while it is not held or acquires it while it is held. -/
def lock_replay (m : Mutex) : Bool → List Event → Option Bool
  | held, [] => some held
  | held, Event.mutex_lock m1 :: es =>
    if m1 = m then (if held then none else lock_replay m true es)
    else lock_replay m held es
  | held, Event.mutex_unlock m1 :: es =>
    if m1 = m then (if held then lock_replay m false es else none)
    else lock_replay m held es
  | held, _ :: es => lock_replay m held es

/-! ## Sample devices and worlds for the worked instances -/

/-- A fresh world over a given bus: no transaction yet, empty trace. -/
def World.init (bus : Nat → Txn → Int) : World := { bus := bus, clock := 0, trace := [] }

/-- The FPGA at bus address 0x60, with register 0x51 selected. -/
def fpga_client : i2c_client :=
  { addr := 0x60, data := { type := cpld_type.as9817_64_fpga, reg := 0x51 } }

/-- A CPLD2 at bus address 0x62. -/
def cpld2_client : i2c_client :=
  { addr := 0x62, data := { type := cpld_type.as9817_64_cpld2, reg := 0 } }

/-- A bus whose first two transactions fail with `-EIO` and whose later ones return
the byte 0x2a. -/
def flaky_bus : Nat → Txn → Int := fun k _ => if k < 2 then -5 else 42

/-- A bus on which every transaction fails with `-EIO`. -/
def dead_bus : Nat → Txn → Int := fun _ _ => -5

/-- A bus on which every transaction returns the status `v`. -/
def steady_bus (v : Int) : Nat → Txn → Int := fun _ _ => v

/-- Client structs behind sample pointers: 1 is the FPGA at 0x60, 2 the CPLD2 at 0x62,
3 a further device that also answers at 0x60, 4 a PSU at 0x58, any other a PSU at 0x59. -/
def sample_mem : Nat → i2c_client
  | 1 => fpga_client
  | 2 => cpld2_client
  | 3 => { addr := 0x60, data := { type := cpld_type.as9817_64_cpld3, reg := 0 } }
  | 4 => { addr := 0x58, data := { type := cpld_type.as9817_64_fpga, reg := 0 } }
  | _ => { addr := 0x59, data := { type := cpld_type.as9817_64_fpga, reg := 0 } }

/-- A kernel that lets every step of the probe succeed. -/
def probe_ok : ProbeEnv :=
  { smbus_byte := true, data_alloc := true, led_pdev_err := none, sysfs_create_group := 0,
    node_alloc := true }

/-! # Theorems -/

/-! ## Bus transport -/

theorem cpld_read_loop_eq (client : i2c_client) (reg : Nat) :
    ∀ (n : Nat) (s : Int) (w : World),
      cpld_read_loop client reg n s w = smbus_retry_loop (Txn.read client.addr reg) n s w := by
  intro n
  induction n with
  | zero => intro s w; rfl
  | succ n ih =>
    intro s w
    simp only [cpld_read_loop, smbus_retry_loop, i2c_smbus_read_byte_data]
    split
    · exact ih _ _
    · rfl

theorem cpld_write_loop_eq (client : i2c_client) (reg value : Nat) :
    ∀ (n : Nat) (s : Int) (w : World),
      cpld_write_loop client reg value n s w =
        smbus_retry_loop (Txn.write client.addr reg value) n s w := by
  intro n
  induction n with
  | zero => intro s w; rfl
  | succ n ih =>
    intro s w
    simp only [cpld_write_loop, smbus_retry_loop, i2c_smbus_write_byte_data]
    split
    · exact ih _ _
    · rfl

theorem smbus_retry_loop_success (t : Txn) :
    ∀ (k n : Nat) (s : Int) (w : World), k < n →
      (∀ j, j < k → w.bus (w.clock + j) t < 0) →
      0 ≤ w.bus (w.clock + k) t →
      smbus_retry_loop t n s w = (w.bus (w.clock + k) t, after_success w t k) := by
  intro k
  induction k with
  | zero =>
    intro n s w hn _ hk
    obtain ⟨m, rfl⟩ : ∃ m, n = m + 1 := ⟨n - 1, by omega⟩
    have h0 : ¬ w.bus w.clock t < 0 := by simpa using hk
    simp [smbus_retry_loop, smbus_xfer, after_success, failed_attempts, h0]
  | succ k ih =>
    intro n s w hn hfail hk
    obtain ⟨m, rfl⟩ : ∃ m, n = m + 1 := ⟨n - 1, by omega⟩
    have h0 : w.bus w.clock t < 0 := by simpa using hfail 0 (by omega)
    have hstep := ih m (w.bus w.clock t)
      (msleep (smbus_xfer w t).2 I2C_RW_RETRY_INTERVAL) (by omega)
      (by
        intro j hj
        have := hfail (j + 1) (by omega)
        simpa [msleep, smbus_xfer, Nat.add_assoc, Nat.add_comm 1 j] using this)
      (by simpa [msleep, smbus_xfer, Nat.add_assoc, Nat.add_comm 1 k] using hk)
    simp only [smbus_retry_loop, smbus_xfer, h0, if_true] at hstep ⊢
    rw [hstep]
    simp [msleep, after_success, failed_attempts, I2C_RW_RETRY_INTERVAL, Nat.add_assoc,
      Nat.add_comm 1 k, Nat.add_comm 1 (k + 1)]

theorem smbus_retry_loop_failure (t : Txn) :
    ∀ (n : Nat) (s : Int) (w : World),
      (∀ j, j < n + 1 → w.bus (w.clock + j) t < 0) →
      smbus_retry_loop t (n + 1) s w = (w.bus (w.clock + n) t, after_failures w t (n + 1)) := by
  intro n
  induction n with
  | zero =>
    intro s w hfail
    have h0 : w.bus w.clock t < 0 := by simpa using hfail 0 (by omega)
    simp [smbus_retry_loop, smbus_xfer, after_failures, failed_attempts, h0, msleep,
      I2C_RW_RETRY_INTERVAL]
  | succ n ih =>
    intro s w hfail
    have h0 : w.bus w.clock t < 0 := by simpa using hfail 0 (by omega)
    have hstep := ih (w.bus w.clock t)
      (msleep (smbus_xfer w t).2 I2C_RW_RETRY_INTERVAL)
      (by
        intro j hj
        have := hfail (j + 1) (by omega)
        simpa [msleep, smbus_xfer, Nat.add_assoc, Nat.add_comm 1 j] using this)
    rw [smbus_retry_loop]
    simp only [h0, smbus_xfer, if_true] at hstep ⊢
    rw [hstep]
    simp [msleep, after_failures, failed_attempts, I2C_RW_RETRY_INTERVAL, Nat.add_assoc,
      Nat.add_comm 1 n, Nat.add_comm 1 (n + 1)]

theorem smbus_retry_loop_clock (t : Txn) :
    ∀ (n : Nat) (s : Int) (w : World), (smbus_retry_loop t n s w).2.clock ≤ w.clock + n := by
  intro n
  induction n with
  | zero => intro s w; simp [smbus_retry_loop]
  | succ n ih =>
    intro s w
    rw [smbus_retry_loop]
    split
    · have := ih (smbus_xfer w t).1 (msleep (smbus_xfer w t).2 I2C_RW_RETRY_INTERVAL)
      simp only [msleep, smbus_xfer] at this ⊢
      omega
    · simp only [smbus_xfer]
      omega

/-- C1. Bus Transport retry.  Whatever statuses the bus returns, each of
`as9817_64_cpld_read_internal` and `as9817_64_cpld_write_internal` (a) when the first
non-negative status comes at attempt `k + 1 ≤ 10`, performs exactly the `k` failed attempts
(each followed by the 60 ms sleep) and that successful one, nothing after it, and returns
its status; (b) when the first 10 attempts all fail, performs exactly those 10 and returns
the status of the 10th; (c) in every case performs at most 10 transactions. -/
theorem transport_retry_contract (w : World) (client : i2c_client) (reg value : Nat) :
    (∀ k, k < 10 → (∀ j, j < k → outcome w (Txn.read client.addr reg) j < 0) →
        0 ≤ outcome w (Txn.read client.addr reg) k →
        as9817_64_cpld_read_internal w client reg =
          (outcome w (Txn.read client.addr reg) k,
           after_success w (Txn.read client.addr reg) k)) ∧
    ((∀ j, j < 10 → outcome w (Txn.read client.addr reg) j < 0) →
        as9817_64_cpld_read_internal w client reg =
          (outcome w (Txn.read client.addr reg) 9,
           after_failures w (Txn.read client.addr reg) 10)) ∧
    (as9817_64_cpld_read_internal w client reg).2.clock ≤ w.clock + 10 ∧
    (∀ k, k < 10 → (∀ j, j < k → outcome w (Txn.write client.addr reg value) j < 0) →
        0 ≤ outcome w (Txn.write client.addr reg value) k →
        as9817_64_cpld_write_internal w client reg value =
          (outcome w (Txn.write client.addr reg value) k,
           after_success w (Txn.write client.addr reg value) k)) ∧
    ((∀ j, j < 10 → outcome w (Txn.write client.addr reg value) j < 0) →
        as9817_64_cpld_write_internal w client reg value =
          (outcome w (Txn.write client.addr reg value) 9,
           after_failures w (Txn.write client.addr reg value) 10)) ∧
    (as9817_64_cpld_write_internal w client reg value).2.clock ≤ w.clock + 10 := by
  simp only [as9817_64_cpld_read_internal, as9817_64_cpld_write_internal, cpld_read_loop_eq,
    cpld_write_loop_eq, I2C_RW_RETRY_COUNT, outcome]
  exact ⟨fun k hk hf hs => smbus_retry_loop_success _ k 10 0 w hk hf hs,
    fun hf => smbus_retry_loop_failure _ 9 0 w hf,
    smbus_retry_loop_clock _ 10 0 w,
    fun k hk hf hs => smbus_retry_loop_success _ k 10 0 w hk hf hs,
    fun hf => smbus_retry_loop_failure _ 9 0 w hf,
    smbus_retry_loop_clock _ 10 0 w⟩

/-- C1, worked instance: on a bus whose first two transactions fail, a transport read
of register 0x51 succeeds at the third attempt, and on a bus that always fails a
transport write gives up after the tenth attempt. -/
theorem transport_retry_contract_witness :
    as9817_64_cpld_read_internal (World.init flaky_bus) fpga_client 0x51 =
      (42, after_success (World.init flaky_bus) (Txn.read 0x60 0x51) 2) ∧
    as9817_64_cpld_write_internal (World.init dead_bus) fpga_client 0x05 0xBF =
      (-5, after_failures (World.init dead_bus) (Txn.write 0x60 0x05 0xBF) 10) :=
  ⟨(transport_retry_contract (World.init flaky_bus) fpga_client 0x51 0).1 2
      (by decide) (by decide) (by decide),
   (transport_retry_contract (World.init dead_bus) fpga_client 0x05 0xBF).2.2.2.2.1
      (by decide)⟩

/-! ## Tokens accepted by `kstrtou8` contain no separator -/

theorem digit_value_clean (c : Char) (v : Nat) (h : digit_value c = some v) :
    c ≠ ' ' ∧ c ≠ Char.ofNat 0 := by
  constructor
  · rintro rfl
    have h0 : digit_value ' ' = none := by decide
    rw [h0] at h
    cases h
  · rintro rfl
    have h0 : digit_value (Char.ofNat 0) = none := by decide
    rw [h0] at h
    cases h

theorem clean_cons {c : Char} {s : List Char} (hc : c ≠ ' ' ∧ c ≠ Char.ofNat 0)
    (hs : clean s) : clean (c :: s) := by
  intro d hd
  rcases List.mem_cons.mp hd with rfl | hd
  · exact hc
  · exact hs d hd

theorem parse_integer_clean (base : Nat) :
    ∀ (s : List Char) (res rv : Nat) (ov : Bool),
      clean (_parse_integer base s res rv ov).2.2.2 → clean s := by
  intro s
  induction s with
  | nil => intro res rv ov h; simpa [_parse_integer] using h
  | cons c s ih =>
    intro res rv ov h
    rw [_parse_integer] at h
    cases hd : digit_value c with
    | none => simpa [hd] using h
    | some val =>
      simp only [hd] at h
      by_cases hb : val ≥ base
      · simpa [hb] using h
      · simp only [hb, if_false] at h
        exact clean_cons (digit_value_clean c val hd) (ih _ _ _ h)

theorem _kstrtoull_clean (s : List Char) (base v : Nat)
    (h : _kstrtoull s base = Except.ok v) : clean s := by
  have hfix : clean (_parse_integer_fixup_radix s base) := by
    apply parse_integer_clean base _ 0 0 false
    unfold _kstrtoull at h
    simp only at h
    split at h
    · cases h
    · split at h
      · cases h
      · split at h
        · cases h
        · rename_i hrest
          simp only [ne_eq, not_not] at hrest
          split at hrest
          · rename_i r heq
            rw [heq, hrest]
            intro c hc
            simp only [List.mem_singleton] at hc
            subst hc
            decide
          · rw [hrest]
            intro c hc
            cases hc
  unfold _parse_integer_fixup_radix at hfix
  split at hfix
  · rename_i c0 c1 rest
    split at hfix
    · rename_i hc
      obtain ⟨_, h0, h1⟩ := hc
      subst h0
      refine clean_cons (by decide) (clean_cons ?_ hfix)
      constructor
      · rintro rfl
        exact absurd h1 (by decide)
      · rintro rfl
        exact absurd h1 (by decide)
    · exact hfix
  · exact hfix

theorem kstrtou8_clean (s : List Char) (base v : Nat)
    (h : kstrtou8 s base = Except.ok v) : clean s ∧ v < 256 := by
  unfold kstrtou8 at h
  split at h
  · cases h
  · rename_i tmp hk
    split at h
    · cases h
    · rename_i hlt
      simp only [ne_eq, not_not] at hlt
      cases h
      refine ⟨?_, by omega⟩
      unfold kstrtoull at hk
      split at hk
      · exact clean_cons (by decide) (_kstrtoull_clean _ _ _ hk)
      · exact _kstrtoull_clean _ _ _ hk

theorem hex_byte_clean (tok : List Char) (v : Nat) (h : hex_byte tok = some v) :
    kstrtou8 tok 16 = Except.ok v ∧ clean tok ∧ v < 256 := by
  unfold hex_byte at h
  cases hk : kstrtou8 tok 16 with
  | error e => rw [hk] at h; cases h
  | ok u =>
    rw [hk] at h
    have hu : u = v := by simpa [Except.toOption] using h
    subst hu
    exact ⟨rfl, kstrtou8_clean tok 16 u hk⟩

/-- Every byte has a two-digit token that `kstrtou8` reads back in base 16. -/
theorem hex_byte_two_digits (b : Nat) (hb : b < 256) :
    hex_byte [hex_digit (b / 16), hex_digit (b % 16)] = some b := by
  interval_cases b <;> rfl

/-! ## `strsep`, the C string in `tmp`, and the token loop -/

theorem strsep_clean (s : List Char) (h : clean s) : strsep s = (s, none) := by
  induction s with
  | nil => rfl
  | cons c s ih =>
    have hc := (h c (List.mem_cons_self c s)).1
    have hs : clean s := fun d hd => h d (List.mem_cons_of_mem c hd)
    simp [strsep, hc, ih hs]

theorem strsep_clean_space (s rest : List Char) (h : clean s) :
    strsep (s ++ ' ' :: rest) = (s, some rest) := by
  induction s with
  | nil => simp [strsep]
  | cons c s ih =>
    have hc := (h c (List.mem_cons_self c s)).1
    have hs : clean s := fun d hd => h d (List.mem_cons_of_mem c hd)
    simp [strsep, hc, ih hs]

theorem strsep_rest_shorter :
    ∀ (s r : List Char), (strsep s).2 = some r → r.length < s.length := by
  intro s
  induction s with
  | nil => intro r h; simp [strsep] at h
  | cons c s ih =>
    intro r h
    by_cases hc : c = ' '
    · simp [strsep, hc] at h
      subst h
      simp
    · simp [strsep, hc] at h
      have := ih r h
      simp only [List.length_cons]
      omega

theorem tokens_strsep (s : List Char) :
    tokens s = (strsep s).1 ::
      (match (strsep s).2 with
       | none => []
       | some r => tokens r) := by
  induction s with
  | nil => rfl
  | cons c s ih =>
    by_cases hc : c = ' '
    · simp [tokens, strsep, hc]
    · rw [tokens, if_neg hc, ih]
      simp [strsep, hc]

theorem c_string_no_nul (s : List Char) (h : ∀ c ∈ s, c ≠ Char.ofNat 0) : c_string s = s := by
  induction s with
  | nil => rfl
  | cons c s ih =>
    have hc := h c (List.mem_cons_self c s)
    have hs : ∀ d ∈ s, d ≠ Char.ofNat 0 := fun d hd => h d (List.mem_cons_of_mem c hd)
    simp [c_string, hc, ih hs]

theorem reg_write_tmp_short (buf : List Char) (hlen : buf.length < 32)
    (h : ∀ c ∈ buf, c ≠ Char.ofNat 0) : reg_write_tmp buf = buf := by
  simp [reg_write_tmp, hlen, c_string_no_nul buf h]

theorem scan_done_none (fuel : Nat) (st : ScanState) (h : st.tmp_p = none) :
    reg_write_scan fuel st = st := by
  cases fuel with
  | zero => rfl
  | succ n =>
    rw [reg_write_scan]
    split
    · simp [h]
    · rfl

theorem scan_done_args (fuel : Nat) (st : ScanState) (h : ¬ st.args < 2) :
    reg_write_scan fuel st = st := by
  cases fuel with
  | zero => rfl
  | succ n =>
    rw [reg_write_scan]
    simp [h]

/-- The token loop needs no more iterations than its measure: run on more fuel than
that, it stands where the `while` condition is false. -/
theorem reg_write_scan_terminates :
    ∀ (fuel : Nat) (st : ScanState), scan_measure st < fuel →
      ¬ ((reg_write_scan fuel st).args < 2) ∨ (reg_write_scan fuel st).tmp_p = none := by
  intro fuel
  induction fuel with
  | zero => intro st h; omega
  | succ n ih =>
    intro st h
    by_cases ha : st.args < 2
    · cases hp : st.tmp_p with
      | none => rw [scan_done_none _ _ hp]; exact Or.inr hp
      | some s =>
        have hm : ∀ st1 : ScanState, st1.tmp_p = (strsep s).2 → scan_measure st1 < n := by
          intro st1 h1
          simp only [scan_measure, hp] at h
          simp only [scan_measure, h1]
          cases hr : (strsep s).2 with
          | none => simp only; omega
          | some r =>
            have := strsep_rest_shorter s r hr
            simp only
            omega
        rw [reg_write_scan]
        simp only [ha, if_true, hp]
        split
        · split
          · exact ih _ (hm _ rfl)
          · exact ih _ (hm _ rfl)
        · exact ih _ (hm _ rfl)
    · rw [scan_done_args _ _ ha]; exact Or.inl ha

/-- The fuel that `reg_write` gives to its token loop is enough for every input. -/
theorem reg_write_scan_fuel_suffices (buf : List Char) :
    ¬ ((reg_write_scan ((reg_write_tmp buf).length + 2)
          { args := 0, input0 := 0, input1 := 0, tmp_p := some (reg_write_tmp buf) }).args < 2) ∨
      (reg_write_scan ((reg_write_tmp buf).length + 2)
          { args := 0, input0 := 0, input1 := 0, tmp_p := some (reg_write_tmp buf) }).tmp_p
        = none :=
  reg_write_scan_terminates _ _ (by simp [scan_measure])

theorem scan_no_hex_byte :
    ∀ (fuel : Nat) (st : ScanState) (s : List Char), st.tmp_p = some s →
      (∀ t ∈ tokens s, hex_byte t = none) →
      (reg_write_scan fuel st).args = st.args := by
  intro fuel
  induction fuel with
  | zero => intro st s _ _; rfl
  | succ n ih =>
    intro st s hp hall
    by_cases ha : st.args < 2
    · rw [tokens_strsep] at hall
      have h1 : hex_byte (strsep s).1 = none := hall _ (List.mem_cons_self _ _)
      have herr : ∃ e, kstrtou8 (strsep s).1 16 = Except.error e := by
        unfold hex_byte at h1
        cases hk : kstrtou8 (strsep s).1 16 with
        | error e => exact ⟨e, rfl⟩
        | ok v => rw [hk] at h1; simp [Except.toOption] at h1
      obtain ⟨e, he⟩ := herr
      rw [reg_write_scan]
      simp only [ha, if_true, hp, he]
      cases hr : (strsep s).2 with
      | none => rw [scan_done_none _ _ rfl]
      | some r =>
        rw [ih { st with tmp_p := some r } r rfl]
        intro t ht
        apply hall t
        rw [hr]
        exact List.mem_cons_of_mem _ ht
    · rw [scan_done_args _ _ ha]

/-! ## Raw access: `reg_write` -/

/-- C2, the claim as stated fails.  The input `10 20 30` has three tokens, yet
`reg_write` accepts it: it returns the input length 8 and writes 0x20 to register 0x10.
The input `zz 10` contains the token `zz`, which is not a hexadecimal byte, yet
`reg_write` accepts it and selects register 0x10. -/
theorem reg_write_accepts_three_tokens :
    (tokens "10 20 30".toList).length = 3 ∧
    (reg_write (World.init (steady_bus 0)) fpga_client "10 20 30".toList).ret = 8 ∧
    (reg_write (World.init (steady_bus 0)) fpga_client "10 20 30".toList).w.trace =
      [Event.mutex_lock (Mutex.update_lock 0x60),
       Event.smbus (Txn.write 0x60 0x10 0x20) 0,
       Event.mutex_unlock (Mutex.update_lock 0x60)] ∧
    "zz".toList ∈ tokens "zz 10".toList ∧
    hex_byte "zz".toList = none ∧
    (reg_write (World.init (steady_bus 0)) fpga_client "zz 10".toList).ret = 5 ∧
    (reg_write (World.init (steady_bus 0)) fpga_client "zz 10".toList).client.data.reg
      = 0x10 := by
  decide

/-- C2, amended.  For every input in which no space-separated token (of the at most 31
bytes that `reg_write` copies) is a hexadecimal byte, `reg_write` fails with `-EINVAL`,
performs no bus transaction (the world is untouched) and leaves the client data, hence
the selected register, unchanged. -/
theorem reg_write_rejects_input_without_hex_byte (w : World) (client : i2c_client)
    (buf : List Char) (h : ∀ t ∈ tokens (reg_write_tmp buf), hex_byte t = none) :
    reg_write w client buf = { ret := -EINVAL, client := client, w := w } := by
  have hs := scan_no_hex_byte ((reg_write_tmp buf).length + 2)
    { args := 0, input0 := 0, input1 := 0, tmp_p := some (reg_write_tmp buf) }
    (reg_write_tmp buf) rfl h
  simp only at hs
  unfold reg_write
  simp [hs]

/-- C2, worked instance: the input `zz` is rejected with `-EINVAL` (-22). -/
theorem reg_write_rejects_input_without_hex_byte_witness :
    reg_write (World.init (steady_bus 0)) fpga_client "zz".toList =
      { ret := -22, client := fpga_client, w := World.init (steady_bus 0) } :=
  reg_write_rejects_input_without_hex_byte (World.init (steady_bus 0)) fpga_client
    "zz".toList (by decide)

/-- C3. Single-token raw write.  For every token that is a hexadecimal byte `R` (and fits
the 31-byte copy buffer), `reg_write` on that token alone stores `R` in the `reg` field of
the client data, leaves the world untouched (no bus transaction, no lock) and returns
the input length. -/
theorem reg_write_single_token_selects (w : World) (client : i2c_client)
    (tok : List Char) (R : Nat) (hR : hex_byte tok = some R) (hlen : tok.length < 32) :
    reg_write w client tok =
      { ret := tok.length
        client := { client with data := { client.data with reg := R } }
        w := w } := by
  obtain ⟨hk, hclean, _⟩ := hex_byte_clean tok R hR
  have htmp : reg_write_tmp tok = tok :=
    reg_write_tmp_short tok hlen (fun c hc => (hclean c hc).2)
  unfold reg_write
  simp only [htmp]
  rw [reg_write_scan]
  simp only [strsep_clean tok hclean, hk]
  simp [scan_done_none]

/-- C3, worked instance: the input `10` selects register 0x10 and returns 2. -/
theorem reg_write_single_token_selects_witness :
    reg_write (World.init dead_bus) fpga_client "10".toList =
      { ret := 2
        client := { addr := 0x60, data := { type := cpld_type.as9817_64_fpga, reg := 0x10 } }
        w := World.init dead_bus } :=
  reg_write_single_token_selects (World.init dead_bus) fpga_client "10".toList 0x10
    (by decide) (by decide)

theorem reg_write_two_tokens_eq (w : World) (client : i2c_client)
    (tokR tokV : List Char) (R V : Nat)
    (hR : hex_byte tokR = some R) (hV : hex_byte tokV = some V)
    (hlen : (tokR ++ ' ' :: tokV).length < 32) :
    reg_write w client (tokR ++ ' ' :: tokV) =
      { ret :=
          if (as9817_64_cpld_write_internal
                (mutex_lock w (Mutex.update_lock client.addr)) client R V).1 < 0
          then (as9817_64_cpld_write_internal
                (mutex_lock w (Mutex.update_lock client.addr)) client R V).1
          else ((tokR ++ ' ' :: tokV).length : Int)
        client := client
        w := mutex_unlock
          (as9817_64_cpld_write_internal
            (mutex_lock w (Mutex.update_lock client.addr)) client R V).2
          (Mutex.update_lock client.addr) } := by
  obtain ⟨hkR, hcR, _⟩ := hex_byte_clean tokR R hR
  obtain ⟨hkV, hcV, _⟩ := hex_byte_clean tokV V hV
  have htmp : reg_write_tmp (tokR ++ ' ' :: tokV) = tokR ++ ' ' :: tokV := by
    apply reg_write_tmp_short _ hlen
    intro c hc
    rcases List.mem_append.mp hc with h | h
    · exact (hcR c h).2
    · rcases List.mem_cons.mp h with rfl | h
      · decide
      · exact (hcV c h).2
  unfold reg_write
  simp only [htmp]
  rw [reg_write_scan]
  simp only [strsep_clean_space tokR tokV hcR, hkR]
  simp only [Nat.lt_succ_self, Nat.zero_lt_succ, if_true]
  rw [reg_write_scan]
  simp only [strsep_clean tokV hcV, hkV]
  simp only [Nat.one_lt_two, if_true, Nat.one_ne_zero, if_false]
  rw [scan_done_none _ _ rfl]
  simp only [if_true]
  split <;> rfl

/-- C4. Two-token raw write.  For all tokens that are hexadecimal bytes `R` and `V`
(the input `R V` fitting the 31-byte copy buffer), `reg_write` takes the update lock,
issues the retrying transport write of `V` to register `R` (whatever register is
stored in the client data), releases the lock and leaves the client data unchanged; it
returns the input length when the write succeeds and the status of the transport when
the write fails. -/
theorem reg_write_two_tokens_writes (w : World) (client : i2c_client)
    (tokR tokV : List Char) (R V : Nat)
    (hR : hex_byte tokR = some R) (hV : hex_byte tokV = some V)
    (hlen : (tokR ++ ' ' :: tokV).length < 32) :
    (reg_write w client (tokR ++ ' ' :: tokV)).w =
        mutex_unlock
          (as9817_64_cpld_write_internal
            (mutex_lock w (Mutex.update_lock client.addr)) client R V).2
          (Mutex.update_lock client.addr) ∧
    (reg_write w client (tokR ++ ' ' :: tokV)).client = client ∧
    (0 ≤ (as9817_64_cpld_write_internal
            (mutex_lock w (Mutex.update_lock client.addr)) client R V).1 →
      (reg_write w client (tokR ++ ' ' :: tokV)).ret = (tokR ++ ' ' :: tokV).length) ∧
    ((as9817_64_cpld_write_internal
            (mutex_lock w (Mutex.update_lock client.addr)) client R V).1 < 0 →
      (reg_write w client (tokR ++ ' ' :: tokV)).ret =
        (as9817_64_cpld_write_internal
            (mutex_lock w (Mutex.update_lock client.addr)) client R V).1) := by
  rw [reg_write_two_tokens_eq w client tokR tokV R V hR hV hlen]
  refine ⟨rfl, rfl, ?_, ?_⟩
  · intro h
    simp [not_lt.mpr h]
  · intro h
    simp [h]

/-- C4, worked instance: with register 0x51 selected, the input `10 AA` writes 0xAA to
register 0x10 and returns 5; on a bus that always fails with -5 it returns -5. -/
theorem reg_write_two_tokens_writes_witness :
    (reg_write (World.init (steady_bus 0)) fpga_client "10 AA".toList).w.trace =
      [Event.mutex_lock (Mutex.update_lock 0x60),
       Event.smbus (Txn.write 0x60 0x10 0xAA) 0,
       Event.mutex_unlock (Mutex.update_lock 0x60)] ∧
    (reg_write (World.init (steady_bus 0)) fpga_client "10 AA".toList).ret = 5 ∧
    (reg_write (World.init dead_bus) fpga_client "10 AA".toList).ret = -5 :=
  ⟨(congrArg World.trace
      (reg_write_two_tokens_writes (World.init (steady_bus 0)) fpga_client
        "10".toList "AA".toList 0x10 0xAA (by decide) (by decide) (by decide)).1).trans
      (by decide),
   (reg_write_two_tokens_writes (World.init (steady_bus 0)) fpga_client
      "10".toList "AA".toList 0x10 0xAA (by decide) (by decide) (by decide)).2.2.1
      (by decide),
   ((reg_write_two_tokens_writes (World.init dead_bus) fpga_client
      "10".toList "AA".toList 0x10 0xAA (by decide) (by decide) (by decide)).2.2.2
      (by decide)).trans (by decide)⟩

/-! ## Raw access: `reg_read` -/

theorem fmt_02x_byte (b : Nat) (hb : b < 256) :
    fmt_02x b = String.mk [hex_digit (b / 16), hex_digit (b % 16)] := by
  interval_cases b <;> rfl

/-- C5. Read-current-register rendering.  For every client and every byte `b`, when the
retrying transport read of the register stored in the client data returns `b`,
`reg_read` (which issues exactly that read, under the update lock) leaves in the
buffer the text `0x`, two lower-case hexadecimal digits of `b` and a newline, and
returns its length 5. -/
theorem reg_read_renders_selected_register (w : World) (client : i2c_client) (buf : String)
    (b : Nat) (hb : b < 256)
    (hread : (as9817_64_cpld_read_internal (mutex_lock w (Mutex.update_lock client.addr))
      client client.data.reg).1 = (b : Int)) :
    (reg_read w client buf).buf =
        "0x" ++ String.mk [hex_digit (b / 16), hex_digit (b % 16)] ++ "\n" ∧
    (reg_read w client buf).ret = 5 ∧
    (reg_read w client buf).w =
      mutex_unlock (mutex_unlock
        (as9817_64_cpld_read_internal (mutex_lock w (Mutex.update_lock client.addr))
          client client.data.reg).2
        (Mutex.update_lock client.addr)) (Mutex.update_lock client.addr) := by
  have hneg : ¬ ((b : Int) < 0) := by omega
  unfold reg_read
  simp only [hread, hneg, if_false, Int.toNat_ofNat, fmt_02x_byte b hb]
  refine ⟨trivial, ?_, trivial⟩
  rfl

/-- C5, worked instance: with register 0x51 selected and the bus returning 0xab after two
failed attempts, `reg_read` renders `0xab` and a newline, and the transactions on the
bus are reads of register 0x51. -/
theorem reg_read_renders_selected_register_witness :
    (reg_read (World.init (fun k _ => if k < 2 then -5 else 0xab)) fpga_client "").buf
      = "0xab\n" ∧
    (reg_read (World.init (fun k _ => if k < 2 then -5 else 0xab)) fpga_client "").ret = 5 :=
  ⟨(reg_read_renders_selected_register
      (World.init (fun k _ => if k < 2 then -5 else 0xab)) fpga_client "" 0xab
      (by decide) (by decide)).1.trans (by decide),
   (reg_read_renders_selected_register
      (World.init (fun k _ => if k < 2 then -5 else 0xab)) fpga_client "" 0xab
      (by decide) (by decide)).2.1⟩

/-- C6, the code at the failing input.  On a bus where every transaction fails with -5,
the retrying transport read of the selected register 0x51 returns -5 after ten
attempts, but `reg_read` returns 0 (its `status` local is never assigned the error)
and leaves the buffer empty: the caller sees a successful empty read. -/
theorem reg_read_reports_success_on_read_failure :
    (as9817_64_cpld_read_internal
        (mutex_lock (World.init dead_bus) (Mutex.update_lock 0x60)) fpga_client 0x51).1 = -5 ∧
    (as9817_64_cpld_read_internal
        (mutex_lock (World.init dead_bus) (Mutex.update_lock 0x60)) fpga_client 0x51).2.clock
      = 10 ∧
    (reg_read (World.init dead_bus) fpga_client "").ret = 0 ∧
    (reg_read (World.init dead_bus) fpga_client "").buf = "" := by
  decide

/-! ## Field decode: `show` and `show_version` -/

theorem fmt_d_nat (n : Nat) : fmt_d (n : Int) = toString n := rfl

theorem show_tail_eq (w : World) (client : i2c_client) (reg shift revert : Nat)
    (buf : String) (b : Nat) (inverted : Bool)
    (hrev : revert = if inverted then 1 else 0)
    (hread : w.bus w.clock (Txn.read client.addr reg) = (b : Int)) :
    (if (i2c_smbus_read_byte_data w client reg).1 < 0 then
       ({ ret := - EIO, buf := buf, w := (i2c_smbus_read_byte_data w client reg).2 } :
         ShowResult)
     else
       { ret := (fmt_d (if revert ≠ 0 then
            (if ((i2c_smbus_read_byte_data w client reg).1.toNat >>> shift) &&& 0x01 = 0
              then 1 else 0)
            else ((((i2c_smbus_read_byte_data w client reg).1.toNat >>> shift) &&& 0x01 : Nat)
              : Int)) ++ "\n").length
         buf := fmt_d (if revert ≠ 0 then
            (if ((i2c_smbus_read_byte_data w client reg).1.toNat >>> shift) &&& 0x01 = 0
              then 1 else 0)
            else ((((i2c_smbus_read_byte_data w client reg).1.toNat >>> shift) &&& 0x01 : Nat)
              : Int)) ++ "\n"
         w := (i2c_smbus_read_byte_data w client reg).2 }) =
      { ret := 2
        buf := bool_text (decode_bit b shift inverted) ++ "\n"
        w := (smbus_xfer w (Txn.read client.addr reg)).2 } := by
  have hneg : ¬ ((b : Int) < 0) := by omega
  simp only [i2c_smbus_read_byte_data, smbus_xfer, hread, hneg, if_false, Int.toNat_ofNat,
    decode_bit, Nat.and_one_is_mod]
  subst hrev
  rcases Nat.mod_two_eq_zero_or_one (b >>> shift) with h | h <;>
    cases inverted <;> simp [h, bool_text] <;> exact ⟨rfl, rfl⟩

/-- C7. Presence / power-good decode.  For each of the four attributes with its listed
register, bit offset and polarity (PSU1_PRESENT 0x07/1/inverted, PSU2_PRESENT
0x07/0/inverted, PSU1_PWR_GOOD 0x51/1/plain, PSU2_PWR_GOOD 0x51/3/plain) and every value
`b` that the single read of that register returns, `show` performs exactly that read
and writes the line `0` or `1` (the digit and a newline) of `(b >> shift) & 1`, negated
iff the attribute is inverted. -/
theorem show_decodes_psu_bits (w : World) (client : i2c_client)
    (attr : as9817_64_cpld_sysfs_attributes) (reg shift : Nat) (inverted : Bool)
    (bits_shift_0 : Nat) (buf : String) (b : Nat)
    (hattr : psu_field attr = some (reg, shift, inverted))
    (hread : outcome w (Txn.read client.addr reg) 0 = (b : Int)) :
    show_ w client attr bits_shift_0 buf =
      { ret := 2
        buf := bool_text (decode_bit b shift inverted) ++ "\n"
        w := (smbus_xfer w (Txn.read client.addr reg)).2 } := by
  simp only [outcome, Nat.add_zero] at hread
  cases attr <;> simp [psu_field] at hattr <;>
    (obtain ⟨rfl, rfl, rfl⟩ := hattr
     exact show_tail_eq w client _ _ _ buf b _ rfl hread)

/-- C7, worked instances: the byte 0b00001010 gives power-good 1 for both PSUs, the byte
0x00 gives 0 for both; PSU1 presence is 0 when bit 1 is set and 1 when it is clear. -/
theorem show_decodes_psu_bits_witness :
    (show_ (World.init (steady_bus 0b00001010)) fpga_client
        as9817_64_cpld_sysfs_attributes.PSU1_PWR_GOOD 0 "").buf = "1\n" ∧
    (show_ (World.init (steady_bus 0b00001010)) fpga_client
        as9817_64_cpld_sysfs_attributes.PSU2_PWR_GOOD 0 "").buf = "1\n" ∧
    (show_ (World.init (steady_bus 0x00)) fpga_client
        as9817_64_cpld_sysfs_attributes.PSU1_PWR_GOOD 0 "").buf = "0\n" ∧
    (show_ (World.init (steady_bus 0x00)) fpga_client
        as9817_64_cpld_sysfs_attributes.PSU2_PWR_GOOD 0 "").buf = "0\n" ∧
    (show_ (World.init (steady_bus 0b00000010)) fpga_client
        as9817_64_cpld_sysfs_attributes.PSU1_PRESENT 0 "").buf = "0\n" ∧
    (show_ (World.init (steady_bus 0x00)) fpga_client
        as9817_64_cpld_sysfs_attributes.PSU1_PRESENT 0 "").buf = "1\n" :=
  ⟨congrArg ShowResult.buf (show_decodes_psu_bits (World.init (steady_bus 0b00001010))
      fpga_client as9817_64_cpld_sysfs_attributes.PSU1_PWR_GOOD 0x51 1 false 0 "" 0b00001010
      rfl rfl),
   congrArg ShowResult.buf (show_decodes_psu_bits (World.init (steady_bus 0b00001010))
      fpga_client as9817_64_cpld_sysfs_attributes.PSU2_PWR_GOOD 0x51 3 false 0 "" 0b00001010
      rfl rfl),
   congrArg ShowResult.buf (show_decodes_psu_bits (World.init (steady_bus 0x00))
      fpga_client as9817_64_cpld_sysfs_attributes.PSU1_PWR_GOOD 0x51 1 false 0 "" 0x00
      rfl rfl),
   congrArg ShowResult.buf (show_decodes_psu_bits (World.init (steady_bus 0x00))
      fpga_client as9817_64_cpld_sysfs_attributes.PSU2_PWR_GOOD 0x51 3 false 0 "" 0x00
      rfl rfl),
   congrArg ShowResult.buf (show_decodes_psu_bits (World.init (steady_bus 0b00000010))
      fpga_client as9817_64_cpld_sysfs_attributes.PSU1_PRESENT 0x07 1 true 0 "" 0b00000010
      rfl rfl),
   congrArg ShowResult.buf (show_decodes_psu_bits (World.init (steady_bus 0x00))
      fpga_client as9817_64_cpld_sysfs_attributes.PSU1_PRESENT 0x07 1 true 0 "" 0x00
      rfl rfl)⟩

/-- C8, the code at the failing input.  For BOARD_INFO the `switch` of `show` sets `reg`
and `mask` but not `bits_shift`, and the decode still shifts by it: with the board-info
register holding 0xFF, `show` reads register 0x00 and prints 255 when the uninitialised
local happens to hold 0, but 127 when it happens to hold 1. -/
theorem show_board_info_shifts_by_uninitialised_local :
    (show_ (World.init (steady_bus 0xFF)) fpga_client
        as9817_64_cpld_sysfs_attributes.BOARD_INFO 0 "").w.trace =
      [Event.smbus (Txn.read 0x60 0x00) 0xFF] ∧
    (show_ (World.init (steady_bus 0xFF)) fpga_client
        as9817_64_cpld_sysfs_attributes.BOARD_INFO 0 "").buf = "255\n" ∧
    (show_ (World.init (steady_bus 0xFF)) fpga_client
        as9817_64_cpld_sysfs_attributes.BOARD_INFO 1 "").buf = "127\n" := by
  decide

/-- C9. VERSION decode.  For every variant and all values `M`, `m`, when the read of the
variant's major register (FPGA 0x01, CPLD2 0x00, CPLD3 0x00) returns `M` and the next
read, of its minor register (FPGA 0x02, CPLD2 0x01, CPLD3 0x01), returns `m`,
`show_version` performs exactly these two reads in this order and writes the line
`M.m` (both numbers in decimal, then a newline), returning its length. -/
theorem show_version_renders_major_minor (w : World) (client : i2c_client)
    (reg1_0 reg2_0 : Nat) (buf : String) (M m : Nat)
    (hM : outcome w (Txn.read client.addr (version_regs client.data.type).1) 0 = (M : Int))
    (hm : outcome w (Txn.read client.addr (version_regs client.data.type).2) 1 = (m : Int)) :
    show_version w client as9817_64_cpld_sysfs_attributes.VERSION reg1_0 reg2_0 buf =
      { ret := (toString M ++ "." ++ toString m ++ "\n").length
        buf := toString M ++ "." ++ toString m ++ "\n"
        w := { w with
          clock := w.clock + 2
          trace := w.trace ++
            [Event.smbus (Txn.read client.addr (version_regs client.data.type).1) M,
             Event.smbus (Txn.read client.addr (version_regs client.data.type).2) m] } } := by
  have hM0 : ¬ ((M : Int) < 0) := by omega
  have hm0 : ¬ ((m : Int) < 0) := by omega
  simp only [outcome, Nat.add_zero] at hM hm
  cases ht : client.data.type <;> simp only [ht, version_regs] at hM hm ⊢ <;>
    simp [show_version, ht, FPGA_MAJOR_VER_REG, FPGA_MINOR_VER_REG, CPLD2_MAJOR_VER_REG,
      CPLD2_MINOR_VER_REG, CPLD3_MAJOR_VER_REG, CPLD3_MINOR_VER_REG,
      i2c_smbus_read_byte_data, smbus_xfer, hM, hm, hM0, hm0, fmt_d_nat]

/-- C9, worked instance: for CPLD2 with major 3 and minor 7 the line written is `3.7`,
read from registers 0x00 and 0x01. -/
theorem show_version_renders_major_minor_witness :
    (show_version (World.init (fun k _ => if k = 0 then 3 else 7)) cpld2_client
      as9817_64_cpld_sysfs_attributes.VERSION 0 0 "").buf = "3.7\n" ∧
    (show_version (World.init (fun k _ => if k = 0 then 3 else 7)) cpld2_client
      as9817_64_cpld_sysfs_attributes.VERSION 0 0 "").w.trace =
      [Event.smbus (Txn.read 0x62 0x00) 3, Event.smbus (Txn.read 0x62 0x01) 7] :=
  ⟨congrArg ShowResult.buf
    (show_version_renders_major_minor (World.init (fun k _ => if k = 0 then 3 else 7))
      cpld2_client 0 0 "" 3 7 rfl rfl),
   congrArg (fun r => r.w.trace)
    (show_version_renders_major_minor (World.init (fun k _ => if k = 0 then 3 else 7))
      cpld2_client 0 0 "" 3 7 rfl rfl)⟩

/-- C10. VERSION fail-fast ordering.  For every variant, `show_version` reads the major
register first.  If that read fails it returns exactly that status, the buffer is left
as it was and the bus has seen that one read only (the minor register is never read).
If the major read succeeds and the following read of the minor register fails, it
returns exactly the status of the minor read, the buffer is left as it was and the bus
has seen the two reads in this order. -/
theorem show_version_fail_fast (w : World) (client : i2c_client)
    (reg1_0 reg2_0 : Nat) (buf : String) :
    (outcome w (Txn.read client.addr (version_regs client.data.type).1) 0 < 0 →
      show_version w client as9817_64_cpld_sysfs_attributes.VERSION reg1_0 reg2_0 buf =
        { ret := outcome w (Txn.read client.addr (version_regs client.data.type).1) 0
          buf := buf
          w := { w with
            clock := w.clock + 1
            trace := w.trace ++
              [Event.smbus (Txn.read client.addr (version_regs client.data.type).1)
                (outcome w (Txn.read client.addr (version_regs client.data.type).1) 0)] } }) ∧
    (0 ≤ outcome w (Txn.read client.addr (version_regs client.data.type).1) 0 →
      outcome w (Txn.read client.addr (version_regs client.data.type).2) 1 < 0 →
      show_version w client as9817_64_cpld_sysfs_attributes.VERSION reg1_0 reg2_0 buf =
        { ret := outcome w (Txn.read client.addr (version_regs client.data.type).2) 1
          buf := buf
          w := { w with
            clock := w.clock + 2
            trace := w.trace ++
              [Event.smbus (Txn.read client.addr (version_regs client.data.type).1)
                (outcome w (Txn.read client.addr (version_regs client.data.type).1) 0),
               Event.smbus (Txn.read client.addr (version_regs client.data.type).2)
                (outcome w (Txn.read client.addr (version_regs client.data.type).2) 1)] } }) := by
  constructor
  · intro h1
    simp only [outcome, Nat.add_zero] at h1 ⊢
    cases ht : client.data.type <;> simp only [ht, version_regs] at h1 ⊢ <;>
      simp [show_version, ht, FPGA_MAJOR_VER_REG, FPGA_MINOR_VER_REG, CPLD2_MAJOR_VER_REG,
        CPLD2_MINOR_VER_REG, CPLD3_MAJOR_VER_REG, CPLD3_MINOR_VER_REG,
        i2c_smbus_read_byte_data, smbus_xfer, h1]
  · intro h1 h2
    simp only [outcome, Nat.add_zero] at h1 h2 ⊢
    have h1n := not_lt.mpr h1
    cases ht : client.data.type <;> simp only [ht, version_regs] at h1n h2 ⊢ <;>
      simp [show_version, ht, FPGA_MAJOR_VER_REG, FPGA_MINOR_VER_REG, CPLD2_MAJOR_VER_REG,
        CPLD2_MINOR_VER_REG, CPLD3_MAJOR_VER_REG, CPLD3_MINOR_VER_REG,
        i2c_smbus_read_byte_data, smbus_xfer, h1n, h2]

/-- C10, worked instances on the FPGA: when the major read fails with -5 the result is -5
after the single read of register 0x01; when the major read returns 3 and the minor
read fails with -6 the result is -6 after the reads of registers 0x01 and 0x02; the
buffer keeps its old contents in both cases. -/
theorem show_version_fail_fast_witness :
    ((show_version (World.init dead_bus) fpga_client
        as9817_64_cpld_sysfs_attributes.VERSION 0 0 "old").ret = -5 ∧
     (show_version (World.init dead_bus) fpga_client
        as9817_64_cpld_sysfs_attributes.VERSION 0 0 "old").buf = "old" ∧
     (show_version (World.init dead_bus) fpga_client
        as9817_64_cpld_sysfs_attributes.VERSION 0 0 "old").w.trace =
       [Event.smbus (Txn.read 0x60 0x01) (-5)]) ∧
    ((show_version (World.init (fun k _ => if k = 0 then 3 else -6)) fpga_client
        as9817_64_cpld_sysfs_attributes.VERSION 0 0 "old").ret = -6 ∧
     (show_version (World.init (fun k _ => if k = 0 then 3 else -6)) fpga_client
        as9817_64_cpld_sysfs_attributes.VERSION 0 0 "old").buf = "old" ∧
     (show_version (World.init (fun k _ => if k = 0 then 3 else -6)) fpga_client
        as9817_64_cpld_sysfs_attributes.VERSION 0 0 "old").w.trace =
       [Event.smbus (Txn.read 0x60 0x01) 3, Event.smbus (Txn.read 0x60 0x02) (-6)]) :=
  ⟨by
      rw [(show_version_fail_fast (World.init dead_bus) fpga_client 0 0 "old").1 (by decide)]
      decide,
   by
      rw [(show_version_fail_fast (World.init (fun k _ => if k = 0 then 3 else -6))
        fpga_client 0 0 "old").2 (by decide) (by decide)]
      decide⟩

/-! ## By-address API, PSU helper and MAC reset -/

theorem find_by_address_addr (mem : Nat → i2c_client) (addr : Nat) :
    ∀ (l : List Nat) (p : Nat), find_by_address mem l addr = some p →
      (mem p).addr = addr ∧ p ∈ l := by
  intro l
  induction l with
  | nil => intro p h; simp [find_by_address] at h
  | cons n rest ih =>
    intro p h
    by_cases hn : (mem n).addr = addr
    · simp [find_by_address, hn] at h
      subst h
      exact ⟨hn, List.mem_cons_self _ _⟩
    · simp only [find_by_address, List.find?, hn, decide_False] at h
      have := ih p h
      exact ⟨this.1, List.mem_cons_of_mem _ this.2⟩

theorem cpld_read_list_loop_none (mem : Nat → i2c_client) (addr reg : Nat) :
    ∀ (l : List Nat) (ret : Int) (w : World), find_by_address mem l addr = none →
      cpld_read_list_loop mem addr reg l ret w = (ret, w) := by
  intro l
  induction l with
  | nil => intro ret w _; rfl
  | cons n rest ih =>
    intro ret w h
    by_cases hn : (mem n).addr = addr
    · simp [find_by_address, hn] at h
    · simp only [find_by_address, List.find?, hn, decide_False] at h
      simp only [cpld_read_list_loop, hn, if_false]
      exact ih ret w h

theorem cpld_read_list_loop_some (mem : Nat → i2c_client) (addr reg : Nat) :
    ∀ (l : List Nat) (ret : Int) (w : World) (p : Nat),
      find_by_address mem l addr = some p →
      cpld_read_list_loop mem addr reg l ret w =
        as9817_64_cpld_read_internal w (mem p) reg := by
  intro l
  induction l with
  | nil => intro ret w p h; simp [find_by_address] at h
  | cons n rest ih =>
    intro ret w p h
    by_cases hn : (mem n).addr = addr
    · simp [find_by_address, hn] at h
      subst h
      simp [cpld_read_list_loop, hn]
    · simp only [find_by_address, List.find?, hn, decide_False] at h
      simp only [cpld_read_list_loop, hn, if_false]
      exact ih ret w p h

theorem cpld_write_list_loop_none (mem : Nat → i2c_client) (addr reg value : Nat) :
    ∀ (l : List Nat) (ret : Int) (w : World), find_by_address mem l addr = none →
      cpld_write_list_loop mem addr reg value l ret w = (ret, w) := by
  intro l
  induction l with
  | nil => intro ret w _; rfl
  | cons n rest ih =>
    intro ret w h
    by_cases hn : (mem n).addr = addr
    · simp [find_by_address, hn] at h
    · simp only [find_by_address, List.find?, hn, decide_False] at h
      simp only [cpld_write_list_loop, hn, if_false]
      exact ih ret w h

theorem cpld_write_list_loop_some (mem : Nat → i2c_client) (addr reg value : Nat) :
    ∀ (l : List Nat) (ret : Int) (w : World) (p : Nat),
      find_by_address mem l addr = some p →
      cpld_write_list_loop mem addr reg value l ret w =
        as9817_64_cpld_write_internal w (mem p) reg value := by
  intro l
  induction l with
  | nil => intro ret w p h; simp [find_by_address] at h
  | cons n rest ih =>
    intro ret w p h
    by_cases hn : (mem n).addr = addr
    · simp [find_by_address, hn] at h
      subst h
      simp [cpld_write_list_loop, hn]
    · simp only [find_by_address, List.find?, hn, decide_False] at h
      simp only [cpld_write_list_loop, hn, if_false]
      exact ih ret w p h

/-- The by-address read when no device is registered at the address: `-EPERM`, and the
world only sees the registry lock taken and released. -/
theorem cpld_read_not_found (w : World) (mem : Nat → i2c_client) (l : List Nat)
    (addr reg : Nat) (h : find_by_address mem l addr = none) :
    as9817_64_cpld_read w mem l addr reg =
      (-EPERM, mutex_unlock (mutex_lock w Mutex.list_lock) Mutex.list_lock) := by
  simp [as9817_64_cpld_read, cpld_read_list_loop_none mem addr reg l _ _ h]

/-- The by-address read when the lookup finds the client behind `p`: the retrying
transport read on that client, inside the registry lock. -/
theorem cpld_read_found (w : World) (mem : Nat → i2c_client) (l : List Nat)
    (addr reg p : Nat) (h : find_by_address mem l addr = some p) :
    as9817_64_cpld_read w mem l addr reg =
      ((as9817_64_cpld_read_internal (mutex_lock w Mutex.list_lock) (mem p) reg).1,
       mutex_unlock
        (as9817_64_cpld_read_internal (mutex_lock w Mutex.list_lock) (mem p) reg).2
        Mutex.list_lock) := by
  simp [as9817_64_cpld_read, cpld_read_list_loop_some mem addr reg l _ _ p h]

/-- The by-address write when no device is registered at the address: `-EIO`, and the
world only sees the registry lock taken and released. -/
theorem cpld_write_not_found (w : World) (mem : Nat → i2c_client) (l : List Nat)
    (addr reg value : Nat) (h : find_by_address mem l addr = none) :
    as9817_64_cpld_write w mem l addr reg value =
      (- EIO, mutex_unlock (mutex_lock w Mutex.list_lock) Mutex.list_lock) := by
  simp [as9817_64_cpld_write, cpld_write_list_loop_none mem addr reg value l _ _ h]

/-- The by-address write when the lookup finds the client behind `p`. -/
theorem cpld_write_found (w : World) (mem : Nat → i2c_client) (l : List Nat)
    (addr reg value p : Nat) (h : find_by_address mem l addr = some p) :
    as9817_64_cpld_write w mem l addr reg value =
      ((as9817_64_cpld_write_internal (mutex_lock w Mutex.list_lock) (mem p) reg value).1,
       mutex_unlock
        (as9817_64_cpld_write_internal (mutex_lock w Mutex.list_lock) (mem p) reg value).2
        Mutex.list_lock) := by
  simp [as9817_64_cpld_write, cpld_write_list_loop_some mem addr reg value l _ _ p h]

/-- C11, the code at the failing input.  With only the CPLD2 (address 0x62) registered,
nothing is registered at 0x60.  `as9817_64_cpld_read(0x60, ..)` returns `-EPERM` (-1) and
`as9817_64_cpld_write(0x60, ..)` returns `-EIO` (-5), both with no bus transaction.  The
same -5 is what `as9817_64_cpld_write` returns for the registered FPGA when every bus
write fails with `-EIO`: the caller of the write cannot tell the two apart. -/
theorem cpld_write_unknown_address_reports_io_error :
    find_by_address sample_mem [2] 0x60 = none ∧
    as9817_64_cpld_read (World.init (steady_bus 0)) sample_mem [2] 0x60 0x51 =
      (-1, mutex_unlock (mutex_lock (World.init (steady_bus 0)) Mutex.list_lock)
        Mutex.list_lock) ∧
    as9817_64_cpld_write (World.init (steady_bus 0)) sample_mem [2] 0x60 0x05 0xBF =
      (-5, mutex_unlock (mutex_lock (World.init (steady_bus 0)) Mutex.list_lock)
        Mutex.list_lock) ∧
    find_by_address sample_mem [1] 0x60 = some 1 ∧
    (as9817_64_cpld_write (World.init dead_bus) sample_mem [1] 0x60 0x05 0xBF).1 = -5 :=
  ⟨by decide, rfl, rfl, by decide, by decide⟩

/-- C12. PSU power-good helper.  For every non-NULL caller `p`: the only activity of
`as9817_64_psu_is_powergood` is `as9817_64_cpld_read(0x60, 0x51)`, which, when a device is
registered at 0x60, is the retrying transport read of register 0x51 on that device (its
address is 0x60, whatever the address of the caller); when that read returns a byte `b`
the result is bit `2 * i + 1` of `b`, with `i = 0` if the caller's address is 0x58 and
`i = 1` otherwise; when it fails the result is 0; and when no device is registered at
0x60 the result is 0 with no bus transaction at all. -/
theorem psu_is_powergood_contract (w : World) (mem : Nat → i2c_client) (l : List Nat)
    (p : Nat) :
    (as9817_64_psu_is_powergood w mem l (some p)).2 =
        (as9817_64_cpld_read w mem l 0x60 0x51).2 ∧
    (∀ q, find_by_address mem l 0x60 = some q →
        (mem q).addr = 0x60 ∧
        as9817_64_cpld_read w mem l 0x60 0x51 =
          ((as9817_64_cpld_read_internal (mutex_lock w Mutex.list_lock) (mem q) 0x51).1,
           mutex_unlock
            (as9817_64_cpld_read_internal (mutex_lock w Mutex.list_lock) (mem q) 0x51).2
            Mutex.list_lock)) ∧
    (∀ b : Nat, (as9817_64_cpld_read w mem l 0x60 0x51).1 = (b : Int) →
        (as9817_64_psu_is_powergood w mem l (some p)).1 =
          (((b >>> (2 * (if (mem p).addr = 0x58 then 0 else 1) + 1)) &&& 1 : Nat) : Int)) ∧
    ((as9817_64_cpld_read w mem l 0x60 0x51).1 < 0 →
        (as9817_64_psu_is_powergood w mem l (some p)).1 = 0) ∧
    (find_by_address mem l 0x60 = none →
        as9817_64_psu_is_powergood w mem l (some p) =
          (0, mutex_unlock (mutex_lock w Mutex.list_lock) Mutex.list_lock)) := by
  refine ⟨?_, ?_, ?_, ?_, ?_⟩
  · simp only [as9817_64_psu_is_powergood, FPGA_PSU_STATUS_REG]
    split <;> rfl
  · intro q hq
    exact ⟨(find_by_address_addr mem 0x60 l q hq).1, cpld_read_found w mem l 0x60 0x51 q hq⟩
  · intro b hb
    have hneg : ¬ ((b : Int) < 0) := by omega
    simp only [as9817_64_psu_is_powergood, FPGA_PSU_STATUS_REG, hb, hneg, if_false,
      Int.toNat_ofNat]
    by_cases h58 : (mem p).addr = 0x58 <;> simp [h58]
  · intro hlt
    simp [as9817_64_psu_is_powergood, FPGA_PSU_STATUS_REG, hlt]
  · intro hnone
    simp [as9817_64_psu_is_powergood, FPGA_PSU_STATUS_REG,
      cpld_read_not_found w mem l 0x60 0x51 hnone, EPERM]

/-- C12, worked instances with the FPGA registered and register 0x51 reading 0b0010: the
caller at 0x58 (PSU index 0, bit 1) gets 1, the caller at 0x59 (PSU index 1, bit 3) gets 0;
on a bus that always fails the caller gets 0. -/
theorem psu_is_powergood_contract_witness :
    (as9817_64_psu_is_powergood (World.init (steady_bus 0b0010)) sample_mem [2, 1]
        (some 4)).1 = 1 ∧
    (as9817_64_psu_is_powergood (World.init (steady_bus 0b0010)) sample_mem [2, 1]
        (some 5)).1 = 0 ∧
    (as9817_64_psu_is_powergood (World.init dead_bus) sample_mem [2, 1] (some 4)).1 = 0 :=
  ⟨((psu_is_powergood_contract (World.init (steady_bus 0b0010)) sample_mem [2, 1] 4).2.2.1
      0b0010 (by decide)).trans (by decide),
   ((psu_is_powergood_contract (World.init (steady_bus 0b0010)) sample_mem [2, 1] 5).2.2.1
      0b0010 (by decide)).trans (by decide),
   (psu_is_powergood_contract (World.init dead_bus) sample_mem [2, 1] 4).2.2.2.1
      (by decide)⟩

/-- C13. MAC reset trigger.  For every input: if it is not a decimal byte (`kstrtou8` in
base 10 rejects it), `reset_mac` returns `-EINVAL` and the world is untouched, so no bus
write is attempted; if it is a decimal byte, then whatever its value the world is that
left by the retrying transport write of 0xBF to register 0x05 on the client the command
was sent to, and the client data is unchanged. -/
theorem reset_mac_contract (w : World) (client : i2c_client) (buf : List Char) :
    (dec_byte (c_string buf) = none →
        reset_mac w client buf = { ret := -EINVAL, client := client, w := w }) ∧
    (∀ v, dec_byte (c_string buf) = some v →
        (reset_mac w client buf).w = (as9817_64_cpld_write_internal w client 0x05 0xBF).2 ∧
        (reset_mac w client buf).client = client) := by
  constructor
  · intro h
    unfold dec_byte at h
    cases hk : kstrtou8 (c_string buf) 10 with
    | error e => simp [reset_mac, hk]
    | ok v => rw [hk] at h; simp [Except.toOption] at h
  · intro v h
    unfold dec_byte at h
    cases hk : kstrtou8 (c_string buf) 10 with
    | error e => rw [hk] at h; simp [Except.toOption] at h
    | ok u => simp [reset_mac, hk, FPGA_RESET1_REG]

/-- C13, worked instances: the input `x` is rejected with -22 before any write; the
inputs `0` and `255` both end in the same write of 0xBF to register 0x05 of the FPGA. -/
theorem reset_mac_contract_witness :
    reset_mac (World.init (steady_bus 0)) fpga_client "x".toList =
      { ret := -22, client := fpga_client, w := World.init (steady_bus 0) } ∧
    (reset_mac (World.init (steady_bus 0)) fpga_client "0".toList).w.trace =
      [Event.smbus (Txn.write 0x60 0x05 0xBF) 0] ∧
    (reset_mac (World.init (steady_bus 0)) fpga_client "255".toList).w.trace =
      [Event.smbus (Txn.write 0x60 0x05 0xBF) 0] :=
  ⟨(reset_mac_contract (World.init (steady_bus 0)) fpga_client "x".toList).1 (by decide),
   (congrArg World.trace
      (((reset_mac_contract (World.init (steady_bus 0)) fpga_client "0".toList).2 0
        (by decide)).1)).trans (by decide),
   (congrArg World.trace
      (((reset_mac_contract (World.init (steady_bus 0)) fpga_client "255".toList).2 255
        (by decide)).1)).trans (by decide)⟩

/-! ## Device registry -/

theorem remove_client_loop_absent (p : Nat) :
    ∀ (l : List Nat), p ∉ l → remove_client_loop p l = l := by
  intro l
  induction l with
  | nil => intro _; rfl
  | cons n rest ih =>
    intro h
    have hn : n ≠ p := fun e => h (e ▸ List.mem_cons_self _ _)
    have hr : p ∉ rest := fun e => h (List.mem_cons_of_mem _ e)
    simp [remove_client_loop, hn, ih hr]

theorem remove_client_loop_sublist (p : Nat) :
    ∀ (l : List Nat), List.Sublist (remove_client_loop p l) l := by
  intro l
  induction l with
  | nil => exact List.Sublist.slnil
  | cons n rest ih =>
    by_cases hn : n = p
    · simp only [remove_client_loop, hn, if_true]
      exact List.sublist_cons_self _ _
    · simp only [remove_client_loop, hn, if_false]
      exact List.Sublist.cons₂ _ ih

theorem remove_client_loop_other_addresses (mem : Nat → i2c_client) (p : Nat) :
    ∀ (l : List Nat), unique_addresses mem l → p ∈ l →
      ∀ q ∈ remove_client_loop p l, (mem q).addr ≠ (mem p).addr := by
  intro l
  induction l with
  | nil => intro _ hp; cases hp
  | cons n rest ih =>
    intro hu hp q hq
    unfold unique_addresses at hu
    rw [List.map_cons, List.nodup_cons] at hu
    obtain ⟨hnot, hrest⟩ := hu
    by_cases hn : n = p
    · subst hn
      simp only [remove_client_loop, if_true] at hq
      intro heq
      exact hnot (heq ▸ List.mem_map_of_mem (fun x => (mem x).addr) hq)
    · simp only [remove_client_loop, hn, if_false] at hq
      have hpr : p ∈ rest := by
        rcases List.mem_cons.mp hp with h | h
        · exact absurd h.symm hn
        · exact h
      rcases List.mem_cons.mp hq with h | h
      · subst h
        intro heq
        exact hnot (heq ▸ List.mem_map_of_mem (fun x => (mem x).addr) hpr)
      · exact ih hrest hpr q h

/-- C14, the claim as stated fails.  Start with a registry that holds the device behind
pointer 3, at bus address 0x60.  Registering the FPGA (pointer 1, also at 0x60) gives the
registry `[1, 3]`; unregistering it again gives `[3]`; a lookup by the FPGA's address
0x60 then still finds a device, and `as9817_64_cpld_read(0x60, 0x51)` returns the byte
42 read from it instead of the not-found result. -/
theorem lookup_after_unregister_finds_other_device :
    (sample_mem 1).addr = 0x60 ∧
    (as9817_64_cpld_add_client (World.init (steady_bus 42)) [3] 1 true).1 = [1, 3] ∧
    (as9817_64_cpld_remove_client (World.init (steady_bus 42)) [1, 3] 1).1 = [3] ∧
    find_by_address sample_mem [3] 0x60 = some 3 ∧
    (as9817_64_cpld_read (World.init (steady_bus 42)) sample_mem [3] 0x60 0x51).1 = 42 := by
  decide

/-- C14, amended.  For every registry and device `p`: (1) after `p` is registered (the
node allocation succeeding) a lookup by the address of `p` finds `p`; (2) when the
registry holds at most one entry per bus address and `p` is in it, after `p` is
unregistered a lookup by the address of `p` finds nothing; (3) unregistering a device
that is not in the registry leaves the registry as it is (the function returns
nothing, so there is no error to report). -/
theorem registry_register_lookup_unregister (w : World) (mem : Nat → i2c_client)
    (l : List Nat) (p : Nat) :
    find_by_address mem (as9817_64_cpld_add_client w l p true).1 (mem p).addr = some p ∧
    (unique_addresses mem l → p ∈ l →
      find_by_address mem (as9817_64_cpld_remove_client w l p).1 (mem p).addr = none) ∧
    (p ∉ l → (as9817_64_cpld_remove_client w l p).1 = l) := by
  refine ⟨?_, ?_, ?_⟩
  · simp [as9817_64_cpld_add_client, find_by_address]
  · intro hu hp
    simp only [as9817_64_cpld_remove_client, find_by_address, List.find?_eq_none]
    intro q hq
    simpa using remove_client_loop_other_addresses mem p l hu hp q hq
  · intro hp
    simp [as9817_64_cpld_remove_client, remove_client_loop_absent p l hp]

/-- C14, worked instance: with the CPLD2 registered, registering the FPGA makes address
0x60 resolve to it, unregistering it makes address 0x60 resolve to nothing, and
unregistering the unregistered pointer 3 leaves the registry `[1, 2]` as it is. -/
theorem registry_register_lookup_unregister_witness :
    find_by_address sample_mem
      (as9817_64_cpld_add_client (World.init dead_bus) [2] 1 true).1 0x60 = some 1 ∧
    find_by_address sample_mem
      (as9817_64_cpld_remove_client (World.init dead_bus) [1, 2] 1).1 0x60 = none ∧
    (as9817_64_cpld_remove_client (World.init dead_bus) [1, 2] 3).1 = [1, 2] :=
  ⟨(registry_register_lookup_unregister (World.init dead_bus) sample_mem [2] 1).1,
   (registry_register_lookup_unregister (World.init dead_bus) sample_mem [1, 2] 1).2.1
      (by unfold unique_addresses; decide) (by decide),
   (registry_register_lookup_unregister (World.init dead_bus) sample_mem [1, 2] 3).2.2
      (by decide)⟩

/-- C15, the claim as stated fails.  With the FPGA (pointer 1, address 0x60) registered,
probing the device behind pointer 3, which is also at address 0x60, succeeds with 0 and
leaves the registry `[3, 1]`: two entries at bus address 0x60. -/
theorem register_at_present_address_adds_entry :
    (sample_mem 1).addr = 0x60 ∧ (sample_mem 3).addr = 0x60 ∧
    (as9817_64_cpld_add_client (World.init dead_bus) [1] 3 true).1 = [3, 1] ∧
    (as9817_64_cpld_probe ⟨World.init dead_bus, sample_mem, [1]⟩ 3
        cpld_type.as9817_64_cpld3 probe_ok).1 = 0 ∧
    (as9817_64_cpld_probe ⟨World.init dead_bus, sample_mem, [1]⟩ 3
        cpld_type.as9817_64_cpld3 probe_ok).2.cpld_client_list = [3, 1] ∧
    ¬ unique_addresses sample_mem [3, 1] := by
  refine ⟨by decide, by decide, by decide, by decide, by decide, ?_⟩
  unfold unique_addresses
  decide

/-- C15, amended.  `as9817_64_cpld_add_client` has no duplicate check: for every registry
and device `p` it inserts `p` at the head (when the node allocation succeeds) and
leaves the entries already there as they are, whether or not the address of `p` is
present; it changes nothing when the allocation fails.  A registry with at most one
entry per bus address keeps that property when a device is registered at an address
that is not present, and whenever a device is unregistered. -/
theorem registry_uniqueness_preserved (w : World) (mem : Nat → i2c_client)
    (l : List Nat) (p : Nat) :
    (as9817_64_cpld_add_client w l p true).1 = p :: l ∧
    (as9817_64_cpld_add_client w l p false) = (l, w) ∧
    (unique_addresses mem l → find_by_address mem l (mem p).addr = none →
      unique_addresses mem (as9817_64_cpld_add_client w l p true).1) ∧
    (unique_addresses mem l →
      unique_addresses mem (as9817_64_cpld_remove_client w l p).1) := by
  refine ⟨by simp [as9817_64_cpld_add_client], by simp [as9817_64_cpld_add_client], ?_, ?_⟩
  · intro hu hnone
    have hl : (as9817_64_cpld_add_client w l p true).1 = p :: l := by
      simp [as9817_64_cpld_add_client]
    rw [hl]
    unfold unique_addresses at hu ⊢
    simp only [find_by_address, List.find?_eq_none] at hnone
    rw [List.map_cons, List.nodup_cons]
    refine ⟨?_, hu⟩
    intro hmem
    obtain ⟨q, hq, heq⟩ := List.mem_map.mp hmem
    exact hnone q hq (by simpa using heq)
  · intro hu
    unfold unique_addresses at hu ⊢
    simp only [as9817_64_cpld_remove_client]
    exact List.Nodup.sublist ((remove_client_loop_sublist p l).map _) hu

/-- C15, worked instance: registering the FPGA at the absent address 0x60 next to the
CPLD2 keeps the addresses unique, and so does unregistering the CPLD2 afterwards. -/
theorem registry_uniqueness_preserved_witness :
    unique_addresses sample_mem
      (as9817_64_cpld_add_client (World.init dead_bus) [2] 1 true).1 ∧
    unique_addresses sample_mem
      (as9817_64_cpld_remove_client (World.init dead_bus) [1, 2] 2).1 :=
  ⟨(registry_uniqueness_preserved (World.init dead_bus) sample_mem [2] 1).2.2.1
      (by unfold unique_addresses; decide) (by decide),
   (registry_uniqueness_preserved (World.init dead_bus) sample_mem [1, 2] 2).2.2.2
      (by unfold unique_addresses; decide)⟩

/-! ## The selected register -/

theorem scan_keeps_input0 :
    ∀ (fuel : Nat) (st : ScanState), st.args ≠ 0 →
      (reg_write_scan fuel st).input0 = st.input0 := by
  intro fuel
  induction fuel with
  | zero => intro st _; rfl
  | succ n ih =>
    intro st h
    by_cases ha : st.args < 2
    · cases hp : st.tmp_p with
      | none => rw [scan_done_none _ _ hp]
      | some s =>
        rw [reg_write_scan]
        simp only [ha, if_true, hp, h, if_false]
        cases hk : kstrtou8 (strsep s).1 16 with
        | ok v => simp only; rw [ih _ (by simp)]
        | error e =>
          simp only
          exact ih { st with tmp_p := (strsep s).2 } h
    · rw [scan_done_args _ _ ha]

theorem hex_bytes_strsep (s : List Char) :
    (tokens s).filterMap hex_byte =
      (match hex_byte (strsep s).1 with
       | some v => [v]
       | none => []) ++
      (match (strsep s).2 with
       | none => []
       | some r => (tokens r).filterMap hex_byte) := by
  rw [tokens_strsep s, List.filterMap_cons]
  cases hex_byte (strsep s).1 <;> cases (strsep s).2 <;> simp

theorem hex_byte_of_ok (tok : List Char) (v : Nat) (h : kstrtou8 tok 16 = Except.ok v) :
    hex_byte tok = some v := by
  simp [hex_byte, h, Except.toOption]

theorem hex_byte_of_error (tok : List Char) (e : Int)
    (h : kstrtou8 tok 16 = Except.error e) : hex_byte tok = none := by
  simp [hex_byte, h, Except.toOption]

theorem scan_from_one :
    ∀ (fuel : Nat) (st : ScanState) (s : List Char), st.args = 1 → st.tmp_p = some s →
      s.length + 1 < fuel →
      (reg_write_scan fuel st).args = if (tokens s).filterMap hex_byte = [] then 1 else 2 := by
  intro fuel
  induction fuel with
  | zero => intro st s _ _ h; omega
  | succ n ih =>
    intro st s ha hp hfuel
    obtain ⟨a, i0, i1, tp⟩ := st
    simp only at ha hp
    subst ha hp
    rw [reg_write_scan, hex_bytes_strsep s]
    simp only [Nat.one_lt_two, if_true, Nat.one_ne_zero, if_false]
    cases hk : kstrtou8 (strsep s).1 16 with
    | ok v =>
      simp only [hex_byte_of_ok _ v hk]
      rw [scan_done_args _ _ (by simp)]
      simp
    | error e =>
      simp only [hex_byte_of_error _ e hk, List.nil_append]
      cases hr : (strsep s).2 with
      | none => rw [scan_done_none _ _ rfl]; simp
      | some r =>
        have hlen := strsep_rest_shorter s r hr
        exact ih { args := 1, input0 := i0, input1 := i1, tmp_p := some r } r rfl rfl
          (by omega)

theorem scan_from_zero :
    ∀ (fuel : Nat) (st : ScanState) (s : List Char), st.args = 0 → st.tmp_p = some s →
      s.length + 1 < fuel →
      ((tokens s).filterMap hex_byte = [] → (reg_write_scan fuel st).args = 0) ∧
      (∀ R, (tokens s).filterMap hex_byte = [R] →
        (reg_write_scan fuel st).args = 1 ∧ (reg_write_scan fuel st).input0 = R) ∧
      (∀ R V rest, (tokens s).filterMap hex_byte = R :: V :: rest →
        (reg_write_scan fuel st).args = 2) := by
  intro fuel
  induction fuel with
  | zero => intro st s _ _ h; omega
  | succ n ih =>
    intro st s ha hp hfuel
    obtain ⟨a, i0, i1, tp⟩ := st
    simp only at ha hp
    subst ha hp
    rw [reg_write_scan, hex_bytes_strsep s]
    simp only [Nat.zero_lt_two, if_true]
    cases hk : kstrtou8 (strsep s).1 16 with
    | ok v =>
      simp only [hex_byte_of_ok _ v hk, List.singleton_append]
      cases hr : (strsep s).2 with
      | none =>
        rw [scan_done_none _ _ rfl]
        simp
      | some r =>
        have hlen := strsep_rest_shorter s r hr
        have h1 := scan_from_one n { args := 1, input0 := v, input1 := i1, tmp_p := some r } r
          rfl rfl (by omega)
        have h0 := scan_keeps_input0 n { args := 1, input0 := v, input1 := i1, tmp_p := some r }
          (by simp)
        simp only at h1 h0
        refine ⟨by simp, ?_, ?_⟩
        · intro R hR
          simp only [List.cons.injEq] at hR
          rw [h1, h0]
          simp [hR.1, hR.2]
        · intro R V rest hR
          simp only [List.cons.injEq] at hR
          rw [h1]
          simp [hR.2]
    | error e =>
      simp only [hex_byte_of_error _ e hk, List.nil_append]
      cases hr : (strsep s).2 with
      | none =>
        rw [scan_done_none _ _ rfl]
        simp
      | some r =>
        have hlen := strsep_rest_shorter s r hr
        exact ih { args := 0, input0 := i0, input1 := i1, tmp_p := some r } r rfl rfl
          (by omega)

/-- What `reg_write` does to the client: the client data keep their variant, and the
selected register becomes `R` exactly when one token of the input, and only one, is a
hexadecimal byte `R`. -/
theorem reg_write_client (w : World) (client : i2c_client) (buf : List Char) :
    (reg_write w client buf).client =
      { client with
        data := { client.data with reg := (select_of buf).getD client.data.reg } } := by
  have hs := scan_from_zero ((reg_write_tmp buf).length + 2)
    { args := 0, input0 := 0, input1 := 0, tmp_p := some (reg_write_tmp buf) }
    (reg_write_tmp buf) rfl rfl (by omega)
  obtain ⟨h0, h1, h2⟩ := hs
  unfold reg_write select_of hex_bytes_of
  cases hv : (tokens (reg_write_tmp buf)).filterMap hex_byte with
  | nil =>
    simp only [h0 hv]
    simp
  | cons R rest =>
    cases rest with
    | nil =>
      obtain ⟨ha, hi⟩ := h1 R hv
      simp only [ha, hi]
      simp
    | cons V rest2 =>
      simp only [h2 R V rest2 hv]
      simp only [if_true]
      split <;> simp

theorem reset_mac_client (w : World) (client : i2c_client) (buf : List Char) :
    (reset_mac w client buf).client = client := by
  unfold reset_mac
  split <;> rfl

theorem step_selected (d : Driver) (p : Nat) (op : Op) :
    ((d.step op).mem p).data.reg = selected_after p (d.mem p).data.reg [op] := by
  cases op with
  | reg_write q buf =>
    by_cases hq : q = p
    · subst hq
      simp [Driver.step, selected_after, reg_write_client]
    · have hq2 : p ≠ q := fun e => hq e.symm
      simp [Driver.step, selected_after, hq, Function.update_noteq hq2]
  | reset_mac q buf =>
    by_cases hq : q = p
    · subst hq
      simp [Driver.step, selected_after, reset_mac_client]
    · have hq2 : p ≠ q := fun e => hq e.symm
      simp [Driver.step, selected_after, Function.update_noteq hq2]
  | reg_read q buf => simp [Driver.step, selected_after]
  | show_ q attr b0 buf => simp [Driver.step, selected_after]
  | show_version q attr r1 r2 buf => simp [Driver.step, selected_after]
  | cpld_read a r => simp [Driver.step, selected_after]
  | cpld_write a r v => simp [Driver.step, selected_after]
  | psu_is_powergood c => simp [Driver.step, selected_after]

theorem selected_after_cons (p r0 : Nat) (op : Op) (ops : List Op) :
    selected_after p r0 (op :: ops) = selected_after p (selected_after p r0 [op]) ops := by
  cases op <;> simp [selected_after]

theorem run_selected (p : Nat) :
    ∀ (ops : List Op) (d : Driver),
      ((d.run ops).mem p).data.reg = selected_after p (d.mem p).data.reg ops := by
  intro ops
  induction ops with
  | nil => intro d; rfl
  | cons op ops ih =>
    intro d
    rw [selected_after_cons, ← step_selected d p op]
    exact ih (d.step op)

theorem probe_success (d : Driver) (p : Nat) (driver_data : cpld_type) (env : ProbeEnv)
    (h1 : env.smbus_byte = true) (h2 : env.data_alloc = true)
    (h3 : env.led_pdev_err = none) (h4 : env.sysfs_create_group = 0) :
    (as9817_64_cpld_probe d p driver_data env).1 = 0 ∧
    ((as9817_64_cpld_probe d p driver_data env).2.mem p).data =
      { type := driver_data, reg := 0 } := by
  cases driver_data <;> simp [as9817_64_cpld_probe, h1, h2, h3, h4]

/-- C16, the claim as stated fails.  On the freshly probed FPGA no single-token command
has been written, yet after the two-token input `zz 10` (accepted: it returns its
length 5) the selected register is 0x10, not 0: `reg_write` takes an input of which
exactly one token is a hexadecimal byte as a select command. -/
theorem two_token_input_selects_register :
    ((as9817_64_cpld_probe ⟨World.init (steady_bus 0), sample_mem, []⟩ 1
        cpld_type.as9817_64_fpga probe_ok).2.mem 1).data.reg = 0 ∧
    (tokens "zz 10".toList).length = 2 ∧
    (reg_write (World.init (steady_bus 0)) fpga_client "zz 10".toList).ret = 5 ∧
    (((as9817_64_cpld_probe ⟨World.init (steady_bus 0), sample_mem, []⟩ 1
        cpld_type.as9817_64_fpga probe_ok).2.run
          [Op.reg_write 1 "zz 10".toList]).mem 1).data.reg = 0x10 := by
  decide

/-- C16, amended.  For every client `p` and every sequence of calls (raw reads and
writes with any input, MAC resets, attribute reads, by-address reads and writes,
PSU-health queries, on `p` or on other clients, succeeding or failing), the register
selected on `p` is the one chosen by the most recent input written to the `access`
attribute of `p` in which exactly one token is a hexadecimal byte (a select command),
or the value from before the sequence if there was none; after a successful probe that
value is 0.  Inputs with two hexadecimal bytes (writes, succeeding or failing),
rejected inputs and all other calls leave it unchanged. -/
theorem selected_register_state_machine (d : Driver) (p : Nat) (ops : List Op) :
    ((d.run ops).mem p).data.reg = selected_after p (d.mem p).data.reg ops ∧
    (∀ (driver_data : cpld_type) (env : ProbeEnv),
      env.smbus_byte = true → env.data_alloc = true → env.led_pdev_err = none →
      env.sysfs_create_group = 0 →
      (((as9817_64_cpld_probe d p driver_data env).2.run ops).mem p).data.reg =
        selected_after p 0 ops) := by
  refine ⟨run_selected p ops d, ?_⟩
  intro driver_data env h1 h2 h3 h4
  rw [run_selected p ops, (probe_success d p driver_data env h1 h2 h3 h4).2]

/-- C16, worked instance on the freshly probed FPGA: after selecting 0x10, a successful
two-token write, a rejected input, a write on a dead device at another pointer, a raw
read, a MAC reset, attribute reads and by-address calls, the selected register is
still 0x10; a later select of 0x51 replaces it. -/
theorem selected_register_state_machine_witness :
    (((as9817_64_cpld_probe ⟨World.init (steady_bus 0), sample_mem, []⟩ 1
        cpld_type.as9817_64_fpga probe_ok).2.run
          [Op.reg_write 1 "10".toList, Op.reg_write 1 "20 AA".toList,
           Op.reg_write 1 "zz".toList, Op.reg_write 2 "30".toList, Op.reg_read 1 "",
           Op.reset_mac 1 "1".toList,
           Op.show_ 1 as9817_64_cpld_sysfs_attributes.PSU1_PRESENT 0 "",
           Op.show_version 1 as9817_64_cpld_sysfs_attributes.VERSION 0 0 "",
           Op.cpld_read 0x60 0x51, Op.cpld_write 0x60 0x05 0xBF,
           Op.psu_is_powergood (some 4)]).mem 1).data.reg = 0x10 ∧
    (((as9817_64_cpld_probe ⟨World.init (steady_bus 0), sample_mem, []⟩ 1
        cpld_type.as9817_64_fpga probe_ok).2.run
          [Op.reg_write 1 "10".toList, Op.reg_write 1 "51".toList]).mem 1).data.reg = 0x51 :=
  ⟨((selected_register_state_machine ⟨World.init (steady_bus 0), sample_mem, []⟩ 1
      [Op.reg_write 1 "10".toList, Op.reg_write 1 "20 AA".toList,
       Op.reg_write 1 "zz".toList, Op.reg_write 2 "30".toList, Op.reg_read 1 "",
       Op.reset_mac 1 "1".toList,
       Op.show_ 1 as9817_64_cpld_sysfs_attributes.PSU1_PRESENT 0 "",
       Op.show_version 1 as9817_64_cpld_sysfs_attributes.VERSION 0 0 "",
       Op.cpld_read 0x60 0x51, Op.cpld_write 0x60 0x05 0xBF,
       Op.psu_is_powergood (some 4)]).2 cpld_type.as9817_64_fpga probe_ok rfl rfl rfl rfl).trans
      (by decide),
   ((selected_register_state_machine ⟨World.init (steady_bus 0), sample_mem, []⟩ 1
      [Op.reg_write 1 "10".toList, Op.reg_write 1 "51".toList]).2
      cpld_type.as9817_64_fpga probe_ok rfl rfl rfl rfl).trans (by decide)⟩

/-! ## Lock discipline and error propagation -/

/-- C17, the code at the failing input.  With register 0x51 selected and the bus
returning 42, `reg_read` takes the update lock once, reads, and then releases the lock
twice (before `sprintf` and again at the `exit:` label it falls into): the second
release happens while the lock is not held.  On the failure path of `reg_read` and on
both paths of the two-token `reg_write` the lock is taken once and released once. -/
theorem reg_read_unlocks_twice_on_success :
    (reg_read (World.init (steady_bus 42)) fpga_client "").w.trace =
      [Event.mutex_lock (Mutex.update_lock 0x60),
       Event.smbus (Txn.read 0x60 0x51) 42,
       Event.mutex_unlock (Mutex.update_lock 0x60),
       Event.mutex_unlock (Mutex.update_lock 0x60)] ∧
    lock_replay (Mutex.update_lock 0x60) false
      (reg_read (World.init (steady_bus 42)) fpga_client "").w.trace = none ∧
    lock_replay (Mutex.update_lock 0x60) false
      (reg_read (World.init dead_bus) fpga_client "").w.trace = some false ∧
    lock_replay (Mutex.update_lock 0x60) false
      (reg_write (World.init (steady_bus 0)) fpga_client "10 AA".toList).w.trace
        = some false ∧
    lock_replay (Mutex.update_lock 0x60) false
      (reg_write (World.init dead_bus) fpga_client "10 AA".toList).w.trace = some false := by
  decide

/-- C18, the code at the failing input.  On a bus where every write fails with -5 the
retrying transport write of 0xBF to register 0x05 returns -5 after ten attempts, but
`reset_mac` on the valid input `1` returns the input length 1, a success.  The raw
write `05 BF` of the same value to the same register on the same bus returns -5. -/
theorem reset_mac_reports_success_on_write_failure :
    (as9817_64_cpld_write_internal (World.init dead_bus) fpga_client 0x05 0xBF).1 = -5 ∧
    (as9817_64_cpld_write_internal (World.init dead_bus) fpga_client 0x05 0xBF).2.clock = 10 ∧
    dec_byte (c_string "1".toList) = some 1 ∧
    (reset_mac (World.init dead_bus) fpga_client "1".toList).ret = 1 ∧
    (reset_mac (World.init dead_bus) fpga_client "1".toList).w.clock = 10 ∧
    (reg_write (World.init dead_bus) fpga_client "05 BF".toList).ret = -5 := by
  decide

/-- C19, the claim as stated fails.  With the FPGA registered,
`as9817_64_cpld_read(0x60, 0x51)` on a bus whose first two transactions fail performs
three bus reads and two retry sleeps, all of them after the registry lock is taken and
before it is released. -/
theorem cpld_read_holds_list_lock_across_bus_io :
    (as9817_64_cpld_read (World.init flaky_bus) sample_mem [1] 0x60 0x51).2.trace =
      [Event.mutex_lock Mutex.list_lock,
       Event.smbus (Txn.read 0x60 0x51) (-5), Event.msleep 60,
       Event.smbus (Txn.read 0x60 0x51) (-5), Event.msleep 60,
       Event.smbus (Txn.read 0x60 0x51) 42,
       Event.mutex_unlock Mutex.list_lock] ∧
    (as9817_64_cpld_write (World.init (steady_bus 0)) sample_mem [1] 0x60 0x05 0xBF).2.trace =
      [Event.mutex_lock Mutex.list_lock,
       Event.smbus (Txn.write 0x60 0x05 0xBF) 0,
       Event.mutex_unlock Mutex.list_lock] := by
  decide

/-- C19, amended.  `as9817_64_cpld_add_client` and `as9817_64_cpld_remove_client` hold the
registry lock around the list mutation only and perform no bus transaction and no
sleep.  `as9817_64_cpld_read` and `as9817_64_cpld_write` take the registry lock, look the
address up, and when a device is found run the whole retrying transport call on it
(transactions and retry sleeps) while the lock is held, releasing the lock only
afterwards; when no device is found they release it with no bus transaction. -/
theorem list_lock_scope (w : World) (mem : Nat → i2c_client) (l : List Nat)
    (addr reg value p : Nat) :
    (as9817_64_cpld_add_client w l p true).2 =
        mutex_unlock (mutex_lock w Mutex.list_lock) Mutex.list_lock ∧
    (as9817_64_cpld_add_client w l p false).2 = w ∧
    (as9817_64_cpld_remove_client w l p).2 =
        mutex_unlock (mutex_lock w Mutex.list_lock) Mutex.list_lock ∧
    (∀ q, find_by_address mem l addr = some q →
      (as9817_64_cpld_read w mem l addr reg).2 =
        mutex_unlock
          (as9817_64_cpld_read_internal (mutex_lock w Mutex.list_lock) (mem q) reg).2
          Mutex.list_lock ∧
      (as9817_64_cpld_write w mem l addr reg value).2 =
        mutex_unlock
          (as9817_64_cpld_write_internal (mutex_lock w Mutex.list_lock) (mem q) reg value).2
          Mutex.list_lock) ∧
    (find_by_address mem l addr = none →
      (as9817_64_cpld_read w mem l addr reg).2 =
        mutex_unlock (mutex_lock w Mutex.list_lock) Mutex.list_lock ∧
      (as9817_64_cpld_write w mem l addr reg value).2 =
        mutex_unlock (mutex_lock w Mutex.list_lock) Mutex.list_lock) := by
  refine ⟨by simp [as9817_64_cpld_add_client], by simp [as9817_64_cpld_add_client],
    by simp [as9817_64_cpld_remove_client], ?_, ?_⟩
  · intro q hq
    rw [cpld_read_found w mem l addr reg q hq, cpld_write_found w mem l addr reg value q hq]
    exact ⟨rfl, rfl⟩
  · intro hnone
    rw [cpld_read_not_found w mem l addr reg hnone,
      cpld_write_not_found w mem l addr reg value hnone]
    exact ⟨rfl, rfl⟩

/-- C19, worked instance: for the registered FPGA the world after
`as9817_64_cpld_read(0x60, 0x51)` is that of the transport read started under the
registry lock, followed by the unlock; for the unregistered address 0x61 the trace is
the lock and the unlock alone. -/
theorem list_lock_scope_witness :
    (as9817_64_cpld_read (World.init flaky_bus) sample_mem [1] 0x60 0x51).2 =
      mutex_unlock
        (as9817_64_cpld_read_internal
          (mutex_lock (World.init flaky_bus) Mutex.list_lock) (sample_mem 1) 0x51).2
        Mutex.list_lock ∧
    (as9817_64_cpld_read (World.init flaky_bus) sample_mem [1] 0x61 0x51).2.trace =
      [Event.mutex_lock Mutex.list_lock, Event.mutex_unlock Mutex.list_lock] :=
  ⟨((list_lock_scope (World.init flaky_bus) sample_mem [1] 0x60 0x51 0 1).2.2.2.1 1
      (by decide)).1,
   (congrArg World.trace
      ((list_lock_scope (World.init flaky_bus) sample_mem [1] 0x61 0x51 0 1).2.2.2.2
        (by decide)).1).trans (by decide)⟩

/-- C20, the code at the failing input.  On a bus whose first two transactions fail with
-5 and whose later ones return 42, the retrying transport read succeeds with 42 (and
`reg_read` prints it), but the attribute reads make a single attempt: `show` returns
`-EIO` for the power-good, presence and board-info attributes after one transaction,
and `show_version` returns -5 after one transaction; none of them writes the buffer. -/
theorem attribute_reads_do_not_retry :
    (as9817_64_cpld_read_internal (World.init flaky_bus) fpga_client 0x51).1 = 42 ∧
    (reg_read (World.init flaky_bus) fpga_client "").buf = "0x2a\n" ∧
    (show_ (World.init flaky_bus) fpga_client
        as9817_64_cpld_sysfs_attributes.PSU1_PWR_GOOD 0 "").ret = -5 ∧
    (show_ (World.init flaky_bus) fpga_client
        as9817_64_cpld_sysfs_attributes.PSU1_PWR_GOOD 0 "").w.trace =
      [Event.smbus (Txn.read 0x60 0x51) (-5)] ∧
    (show_ (World.init flaky_bus) fpga_client
        as9817_64_cpld_sysfs_attributes.PSU1_PRESENT 0 "").ret = -5 ∧
    (show_ (World.init flaky_bus) fpga_client
        as9817_64_cpld_sysfs_attributes.BOARD_INFO 0 "").ret = -5 ∧
    (show_ (World.init flaky_bus) fpga_client
        as9817_64_cpld_sysfs_attributes.BOARD_INFO 0 "").buf = "" ∧
    (show_version (World.init flaky_bus) fpga_client
        as9817_64_cpld_sysfs_attributes.VERSION 0 0 "").ret = -5 ∧
    (show_version (World.init flaky_bus) fpga_client
        as9817_64_cpld_sysfs_attributes.VERSION 0 0 "").w.trace =
      [Event.smbus (Txn.read 0x60 0x01) (-5)] := by
  decide

end As9817
